import Mathlib

/-!
Verification development for the quark resource-allocation core
(`quark/ipam.py`, `quark/drivers/nvp_driver.py`,
`quark/drivers/optimized_nvp_driver.py`, `quark/drivers/base.py`).

Addresses (IPv4/IPv6 integers, MAC integers), identifiers and times are
modelled as `Nat`; port counters and configured limits, which the Python
code manipulates as signed ints, are modelled as `Int`.  Database rows are
lists of records; the persistence layer (`quark/db/api.py`, absent from
the sources) is modelled from the spec where noted.
-/

/-! ## Generic list helpers -/

/-- Find the first element satisfying `p` together with its index. -/
def find_idx_row {α : Type} (p : α → Bool) : List α → Option (Nat × α)
  | [] => none
  | r :: t =>
    if p r then some (0, r)
    else (find_idx_row p t).map (fun ir => (ir.1 + 1, ir.2))

/-- Replace the first element satisfying `p` by its image under `f`
(models an in-place mutation of the row returned by a `.first()` query). -/
def update_first {α : Type} (p : α → Bool) (f : α → α) : List α → List α
  | [] => []
  | r :: t => if p r then f r :: t else r :: update_first p f t

/-- Remove the first element satisfying `p` (models `session.delete` of the
row returned by a `.first()` query). -/
def remove_first {α : Type} (p : α → Bool) : List α → List α
  | [] => []
  | r :: t => if p r then t else r :: remove_first p t

theorem find_idx_row_some {α : Type} {p : α → Bool} {l : List α} {i : Nat} {r : α}
    (h : find_idx_row p l = some (i, r)) : r ∈ l ∧ p r = true := by
  induction l generalizing i with
  | nil => simp [find_idx_row] at h
  | cons x t ih =>
    rw [find_idx_row] at h
    by_cases hx : p x
    · rw [if_pos hx] at h
      injection h with h'
      injection h' with h1 h2
      subst h2
      exact ⟨List.mem_cons_self x t, hx⟩
    · rw [if_neg hx] at h
      cases hfind : find_idx_row p t with
      | none => rw [hfind] at h; simp at h
      | some jr =>
        obtain ⟨j, y⟩ := jr
        rw [hfind] at h
        simp only [Option.map_some'] at h
        injection h with h'
        injection h' with h1 h2
        subst h2
        rcases ih hfind with ⟨hm, hp⟩
        exact ⟨List.mem_cons_of_mem x hm, hp⟩

theorem find_idx_row_none {α : Type} {p : α → Bool} {l : List α}
    (h : find_idx_row p l = none) : ∀ r ∈ l, p r = false := by
  induction l with
  | nil => intro r hr; simp at hr
  | cons x t ih =>
    by_cases hx : p x
    · simp [find_idx_row, hx] at h
    · intro r hr
      simp [find_idx_row, hx] at h
      rcases List.mem_cons.mp hr with rfl | hrt
      · exact Bool.eq_false_iff.mpr hx
      · exact ih h r hrt

/-! ## IPAM data model (`quark/ipam.py`)

A subnet record flattens `subnet["network"]["ip_policy"]` into the field
`network_ip_policy`.  A policy that is absent or an empty dict (both falsy
in Python's `or` chain) is modelled as `none`. -/

structure IPPolicyRule where
  address : Nat
  prefix_length : Nat
  deriving DecidableEq, Repr

structure IPPolicy where
  exclude : List IPPolicyRule
  deriving DecidableEq, Repr

structure Subnet where
  id : Nat
  network_id : Nat
  cidr_address : Nat
  cidr_prefix_length : Nat
  ip_version : Nat
  next_auto_assign_ip : Nat
  ip_policy : Option IPPolicy
  network_ip_policy : Option IPPolicy
  deriving DecidableEq, Repr

structure IPAddressRow where
  address : Nat
  subnet_id : Nat
  network_id : Nat
  tenant_id : Nat
  version : Nat
  deallocated : Bool
  deallocated_at : Option Nat
  deriving DecidableEq, Repr

structure IpamState where
  subnets : List Subnet
  ips : List IPAddressRow
  deriving DecidableEq, Repr

/-- Address width in bits of a subnet, from its IP version. -/
def subnet_width (sn : Subnet) : Nat :=
  if sn.ip_version = 4 then 32 else 128

/-- Number of addresses of a network of the given prefix length
(`netaddr.IPNetwork(...).size`). -/
def net_size (plen width : Nat) : Nat := 2 ^ (width - plen)

/-- First address of a network: the base address masked to the prefix
(`netaddr` normalises the host bits away for membership tests). -/
def net_first (addr plen width : Nat) : Nat :=
  (addr / net_size plen width) * net_size plen width

/-- `a in netaddr.IPNetwork(...)`. -/
def in_network (a addr plen width : Nat) : Bool :=
  decide (net_first addr plen width ≤ a) &&
    decide (a < net_first addr plen width + net_size plen width)

/-- Membership of an address in the subnet's own CIDR. -/
def subnet_cidr_member (sn : Subnet) (a : Nat) : Bool :=
  in_network a sn.cidr_address sn.cidr_prefix_length (subnet_width sn)

/-- The policy the code selects:
`subnet["ip_policy"] or subnet["network"]["ip_policy"] or dict()`. -/
def effective_policy (sn : Subnet) : List IPPolicyRule :=
  match sn.ip_policy with
  | some p => p.exclude
  | none =>
    match sn.network_ip_policy with
    | some p => p.exclude
    | none => []

/-- `QuarkIpam.get_ip_policy_rule_set`, as a membership test: the union of
the excluded networks intersected with the subnet's CIDR.  `netaddr` builds
the rule networks from `(int, prefix)` pairs, which are IPv4 networks, so
for a non-v4 subnet the intersection with the subnet set is empty. -/
def ip_policy_member (sn : Subnet) (a : Nat) : Bool :=
  decide (sn.ip_version = 4) && subnet_cidr_member sn a &&
    (effective_policy sn).any (fun r => in_network a r.address r.prefix_length 32)

/-- `.size` of the rule set returned by `get_ip_policy_rule_set`. -/
def ip_policy_size (sn : Subnet) : Nat :=
  ((List.range (net_size sn.cidr_prefix_length (subnet_width sn))).filter
    (fun i =>
      ip_policy_member sn
        (net_first sn.cidr_address sn.cidr_prefix_length (subnet_width sn) + i))).length

/-! ## Modelled persistence layer for IP addresses

`quark/db/api.py` is not among the sources; its query functions are
modelled from the spec (§4.2, §6): exact-match filters, single-row scope
returns the first matching row. -/

/-- Row is deallocated and its quarantine has expired
(`now − deallocated_at ≥ reuse_after`); a row with no timestamp is not
eligible. -/
def reuse_eligible (now reuse_after : Nat) (r : IPAddressRow) : Bool :=
  r.deallocated &&
    (match r.deallocated_at with
     | some t => decide (reuse_after ≤ now - t)
     | none => false)

/-- Modelled from the spec: `db_api.ip_address_find(elevated,
network_id=..., reuse_after=..., deallocated=True, scope=ONE,
ip_address=...)` — first previously released address of the network whose
quarantine has expired, filtered by the requested address when given.
Returns the row with its index so the update can be written back. -/
def ip_address_find_deallocated (st : IpamState) (net reuse_after now : Nat)
    (a : Option Nat) : Option (Nat × IPAddressRow) :=
  find_idx_row
    (fun r =>
      decide (r.network_id = net) && reuse_eligible now reuse_after r &&
        (match a with
         | some x => decide (r.address = x)
         | none => true))
    st.ips

/-- Modelled from the spec: `db_api.ip_address_find(elevated,
network_id=..., ip_address=..., tenant_id=..., scope=ONE)` — the
duplicate check of the requested-address and sequential paths.  Note the
source passes a `tenant_id` filter and no `deallocated` filter. -/
def ip_address_find_tenant (st : IpamState) (net a tenant : Nat) :
    Option IPAddressRow :=
  st.ips.find?
    (fun r =>
      decide (r.network_id = net) && decide (r.address = a) &&
        decide (r.tenant_id = tenant))

/-- Modelled from the spec: the per-subnet allocation count produced by
`db_api.subnet_find_allocation_counts` — the number of currently
allocated (non-deallocated) addresses of the subnet. -/
def ips_in_subnet (st : IpamState) (subnet_id : Nat) : Nat :=
  (st.ips.filter
    (fun r => decide (r.subnet_id = subnet_id) && !r.deallocated)).length

/-- Body of `QuarkIpam._choose_available_subnet`: scan the network's
subnets (filtered by version when given) in order; skip a subnet whose
CIDR does not contain the requested address (when one was given); compute
the policy size only when no address was requested; pick the first subnet
with free capacity.  Returns the subnet with its index in `st.subnets`. -/
def choose_available_subnet (st : IpamState) (net : Nat)
    (version : Option Nat) (a : Option Nat) : Option (Nat × Subnet) :=
  find_idx_row
    (fun sn =>
      decide (sn.network_id = net) &&
        (match version with
         | some v => decide (sn.ip_version = v)
         | none => true) &&
        (match a with
         | some x => subnet_cidr_member sn x
         | none => true) &&
        (let policy_size := match a with
           | some _ => 0
           | none => ip_policy_size sn
         decide (ips_in_subnet st sn.id + policy_size <
           net_size sn.cidr_prefix_length (subnet_width sn))))
    st.subnets

/-- The sequential-assignment `while` loop of
`QuarkIpam.allocate_ip_address`: take the cursor as candidate, advance the
cursor by one, skip candidates in the policy rule set, stop at the first
candidate with no existing row for this network/tenant.  Returns the
winning candidate and the final cursor; `fuel` bounds the unbounded Python
loop, `none` meaning the loop did not terminate within `fuel` steps. -/
def next_ip_loop (st : IpamState) (net tenant : Nat) (pol : Nat → Bool)
    (cursor : Nat) : Nat → Option (Nat × Nat)
  | 0 => none
  | fuel + 1 =>
    let next_ip := cursor
    let cursor2 := cursor + 1
    if pol next_ip then next_ip_loop st net tenant pol cursor2 fuel
    else
      match ip_address_find_tenant st net next_ip tenant with
      | some _ => next_ip_loop st net tenant pol cursor2 fuel
      | none => some (next_ip, cursor2)

inductive IpamErr
  | ipAddressGenerationFailure
  | outOfFuel
  deriving DecidableEq, Repr

/-- The row built by `db_api.ip_address_create` followed by
`address["deallocated"] = 0`. -/
def mk_ip_row (a : Nat) (sn : Subnet) (net tenant : Nat) : IPAddressRow :=
  { address := a, subnet_id := sn.id, network_id := net, tenant_id := tenant,
    version := sn.ip_version, deallocated := false, deallocated_at := none }

/-- `QuarkIpam.allocate_ip_address`.  The `netaddr` conversions
(`IPAddress(int)`, `.ipv4()`) are value-preserving on the integers we
model.  On the reclaim fast path the found row is updated in place with
`deallocated=False, deallocated_at=None`; on the sequential path the
chosen subnet's cursor advance and the created row are both part of the
resulting state. -/
def allocate_ip_address (st : IpamState) (tenant net reuse_after now : Nat)
    (version : Option Nat) (ip_arg : Option Nat) (fuel : Nat) :
    Except IpamErr (IPAddressRow × IpamState) :=
  match ip_address_find_deallocated st net reuse_after now ip_arg with
  | some (i, r) =>
    let r2 := { r with deallocated := false, deallocated_at := none }
    .ok (r2, { st with ips := st.ips.set i r2 })
  | none =>
    match choose_available_subnet st net version ip_arg with
    | none => .error .ipAddressGenerationFailure
    | some (j, sn) =>
      match ip_arg with
      | some a =>
        match ip_address_find_tenant st net a tenant with
        | some _ => .error .ipAddressGenerationFailure
        | none =>
          let row := mk_ip_row a sn net tenant
          .ok (row, { st with ips := st.ips ++ [row] })
      | none =>
        match next_ip_loop st net tenant (ip_policy_member sn)
            sn.next_auto_assign_ip fuel with
        | none => .error .outOfFuel
        | some (ip, cursor2) =>
          let sn2 := { sn with next_auto_assign_ip := cursor2 }
          let row := mk_ip_row ip sn net tenant
          .ok (row,
            { st with subnets := st.subnets.set j sn2,
                      ips := st.ips ++ [row] })

/-- One address row as seen through `port["ip_addresses"]`: the row's
fields together with its list of referencing ports. -/
structure PortIPRef where
  address : Nat
  deallocated : Bool
  deallocated_at : Option Nat
  ports : List Nat
  deriving DecidableEq, Repr

/-- `QuarkIpam.deallocate_ip_address(context, port)`: for each address
referenced by the port, set the deallocated flag when the port is the
address's only referencing port; then clear the port's reference list.
The function takes no clock and touches no timestamp.  Returns the
updated address rows and the port's (emptied) reference list. -/
def deallocate_ip_address (refs : List PortIPRef) :
    List PortIPRef × List PortIPRef :=
  (refs.map
    (fun a =>
      if a.ports.length = 1 then { a with deallocated := true } else a),
   [])

/-! ## MAC allocator (`QuarkIpam.allocate_mac_address`) -/

structure MacRange where
  id : Nat
  first_address : Nat
  last_address : Nat
  next_auto_assign_mac : Nat
  deriving DecidableEq, Repr

structure MacRow where
  address : Nat
  mac_address_range_id : Nat
  tenant_id : Nat
  deallocated : Bool
  deallocated_at : Option Nat
  deriving DecidableEq, Repr

structure MacState where
  mac_ranges : List MacRange
  macs : List MacRow
  deriving DecidableEq, Repr

/-- Quarantine test for MAC rows, as for IP rows. -/
def mac_reuse_eligible (now reuse_after : Nat) (m : MacRow) : Bool :=
  m.deallocated &&
    (match m.deallocated_at with
     | some t => decide (reuse_after ≤ now - t)
     | none => false)

/-- Modelled from the spec: `db_api.mac_address_find(context,
reuse_after=..., scope=ONE, address=...)` — first released MAC whose
quarantine has expired, filtered by the requested MAC when given. -/
def mac_address_find_deallocated (st : MacState) (reuse_after now : Nat)
    (a : Option Nat) : Option (Nat × MacRow) :=
  find_idx_row
    (fun m =>
      mac_reuse_eligible now reuse_after m &&
        (match a with
         | some x => decide (m.address = x)
         | none => true))
    st.macs

/-- Modelled from the spec: `db_api.mac_address_find(context,
tenant_id=context.tenant_id, scope=ONE, address=...)` — the cursor-loop
skip check.  The source passes a `tenant_id` filter and neither a range
nor a `deallocated` filter. -/
def mac_address_find_tenant (st : MacState) (tenant a : Nat) :
    Option MacRow :=
  st.macs.find?
    (fun m => decide (m.tenant_id = tenant) && decide (m.address = a))

/-- Modelled from the spec: the per-range allocation count produced by
`db_api.mac_address_range_find_allocation_counts` — the number of
currently allocated (non-deallocated) MACs of the range. -/
def macs_in_range (st : MacState) (range_id : Nat) : Nat :=
  (st.macs.filter
    (fun m =>
      decide (m.mac_address_range_id = range_id) && !m.deallocated)).length

/-- The `for` loop head of `allocate_mac_address`: first range (filtered,
when a MAC was requested, to ranges covering it — modelled from the spec)
that passes the capacity check
`last_address − first_address > allocation_count`. -/
def choose_mac_range (st : MacState) (a : Option Nat) :
    Option (Nat × MacRange) :=
  find_idx_row
    (fun rng =>
      (match a with
       | some x =>
         decide (rng.first_address ≤ x) && decide (x ≤ rng.last_address)
       | none => true) &&
        decide (macs_in_range st rng.id <
          rng.last_address - rng.first_address))
    st.mac_ranges

/-- The cursor-advance `while` loop of `allocate_mac_address`: take the
cursor as candidate, advance the cursor, stop at the first candidate with
no existing row for the requesting tenant. -/
def next_mac_loop (st : MacState) (tenant cursor : Nat) :
    Nat → Option (Nat × Nat)
  | 0 => none
  | fuel + 1 =>
    let next_address := cursor
    let cursor2 := cursor + 1
    match mac_address_find_tenant st tenant next_address with
    | some _ => next_mac_loop st tenant cursor2 fuel
    | none => some (next_address, cursor2)

inductive MacErr
  | macAddressGenerationFailure
  | outOfFuel
  deriving DecidableEq, Repr

/-- `QuarkIpam.allocate_mac_address`.  `netaddr.EUI(...).value` is the
identity on the integers we model.  Note the requested-MAC branch creates
the row without any duplicate check, and the sequential branch's skip
check is `mac_address_find_tenant`. -/
def allocate_mac_address (st : MacState) (tenant reuse_after now : Nat)
    (mac_arg : Option Nat) (fuel : Nat) :
    Except MacErr (MacRow × MacState) :=
  match mac_address_find_deallocated st reuse_after now mac_arg with
  | some (i, m) =>
    let m2 := { m with deallocated := false, deallocated_at := none }
    .ok (m2, { st with macs := st.macs.set i m2 })
  | none =>
    match choose_mac_range st mac_arg with
    | none => .error .macAddressGenerationFailure
    | some (j, rng) =>
      match mac_arg with
      | some a =>
        let row : MacRow :=
          { address := a, mac_address_range_id := rng.id,
            tenant_id := tenant, deallocated := false,
            deallocated_at := none }
        .ok (row, { st with macs := st.macs ++ [row] })
      | none =>
        match next_mac_loop st tenant rng.next_auto_assign_mac fuel with
        | none => .error .outOfFuel
        | some (addr, cursor2) =>
          let rng2 := { rng with next_auto_assign_mac := cursor2 }
          let row : MacRow :=
            { address := addr, mac_address_range_id := rng.id,
              tenant_id := tenant, deallocated := false,
              deallocated_at := none }
          .ok (row,
            { st with mac_ranges := st.mac_ranges.set j rng2,
                      macs := st.macs ++ [row] })

/-! ## Provider-network validation (`NVPDriver._config_provider_attrs`) -/

/-- The module-level `physical_net_type_map` of `nvp_driver.py`. -/
def physical_net_type_map (s : String) : Option String :=
  if s = "stt" then some "stt"
  else if s = "gre" then some "gre"
  else if s = "flat" then some "bridge"
  else if s = "bridge" then some "bridge"
  else if s = "vlan" then some "bridge"
  else if s = "local" then some "local"
  else none

inductive ProvErr
  | providernetParamError
  | segmentIdUnsupported
  | segmentIdRequired
  | invalidPhysicalNetworkType
  | physicalNetworkNotFound
  deriving DecidableEq, Repr

/-- The transport-zone binding attached to the switch on success. -/
structure SwitchBinding where
  zone_uuid : String
  transport_type : String
  vlan_id : Option Nat
  deriving DecidableEq, Repr

/-- Python truthiness of the `segment_id` argument: absent or zero is
falsy. -/
def segment_truthy (segment_id : Option Nat) : Bool :=
  match segment_id with
  | some n => decide (n ≠ 0)
  | none => false

/-- `NVPDriver._config_provider_attrs(connection, switch, phys_net,
net_type, segment_id)`.  The transport-zone query is abstracted by
`tz_result_count`, the controller's `result_count` for a given zone UUID.
Returns `none` when no provider binding applies (both parameters absent),
the binding otherwise.  The guard tuple in the source is
`("bridge", "vlan")`; the comparison uses the raw `net_type`, while the
connector-type map lookup lowercases it. -/
def config_provider_attrs (tz_result_count : String → Nat)
    (phys_net : Option String) (net_type : Option String)
    (segment_id : Option Nat) : Except ProvErr (Option SwitchBinding) :=
  match phys_net, net_type with
  | none, none => .ok none
  | none, some _ => .error .providernetParamError
  | some _, none => .error .providernetParamError
  | some p, some t =>
    if ¬(t = "bridge" ∨ t = "vlan") ∧ segment_truthy segment_id then
      .error .segmentIdUnsupported
    else if t = "vlan" ∧ ¬segment_truthy segment_id then
      .error .segmentIdRequired
    else
      match physical_net_type_map t.toLower with
      | none => .error .invalidPhysicalNetworkType
      | some phys_type =>
        if tz_result_count p = 0 then .error .physicalNetworkNotFound
        else
          .ok (some
            { zone_uuid := p, transport_type := phys_type,
              vlan_id := segment_id })

/-! ## Driver limits dictionary and `limits_checked`
(`nvp_driver.py` lines 123-138, `base.py` lines 50-56) -/

/-- A value of the `self.limits` dict: an int or a Python bool
(`False` marks a limit as already checked / disabled). -/
inductive LVal
  | num : Int → LVal
  | flag : Bool → LVal
  deriving DecidableEq, Repr

/-- The limits dict, as an association list in insertion order. -/
def LMap : Type := List (String × LVal)

instance : DecidableEq LMap := by
  unfold LMap
  infer_instance

/-- `d[k]` as an option. -/
def lmap_lookup (d : LMap) (k : String) : Option LVal :=
  match d with
  | [] => none
  | kv :: t => if kv.1 = k then some kv.2 else lmap_lookup t k

/-- `d[k] = v`: replace in place, else append (CPython dicts preserve
insertion order). -/
def lmap_set (d : LMap) (k : String) (v : LVal) : LMap :=
  match d with
  | [] => [(k, v)]
  | kv :: t => if kv.1 = k then (k, v) :: t else kv :: lmap_set t k v

/-- `d.update(o)`: set every entry of `o` in order. -/
def lmap_update (d o : LMap) : LMap :=
  o.foldl (fun acc kv => lmap_set acc kv.1 kv.2) d

/-- The entry loop of `NVPDriver.limits_checked`:
`orig_limits[limit], self.limits[limit] = (self.limits[limit], False)` for
each name; a name missing from `self.limits` raises `KeyError`.  Returns
`(orig_limits, self.limits)` as they stand at the `yield`. -/
def nvp_limits_checked_enter (orig d : LMap) :
    List String → Except Unit (LMap × LMap)
  | [] => .ok (orig, d)
  | l :: ls =>
    match lmap_lookup d l with
    | none => .error ()
    | some v =>
      nvp_limits_checked_enter (lmap_set orig l v)
        (lmap_set d l (.flag false)) ls

/-- The entry loop of `BaseDriver.limits_checked`:
`self.limits[l], orig_limits[l] = False, self.limits.get(l, False)`
(the right-hand tuple is evaluated before either assignment). -/
def base_limits_checked_enter (orig d : LMap) :
    List String → LMap × LMap
  | [] => (orig, d)
  | l :: ls =>
    base_limits_checked_enter
      (lmap_set orig l ((lmap_lookup d l).getD (.flag false)))
      (lmap_set d l (.flag false)) ls

/-- The restore after the `yield`: `self.limits.update(orig_limits)`.
It runs only on normal completion of the block (no try/finally in the
source). -/
def limits_checked_exit (d orig : LMap) : LMap :=
  lmap_update d orig

/-! ## Optimized placement driver (`optimized_nvp_driver.py`)

The local capacity cache (`LSwitch`, `LSwitchPort`, `SecurityProfile`
rows) together with the remote controller, abstracted as an oracle
deciding which remote call succeeds.  Fresh primary keys and remote uuids
are drawn from a counter; `port_count` is an `Int` as in the source
(`switch.port_count - 1` may go negative in Python). -/

structure LSwitchRow where
  id : Nat
  nvp_id : Nat
  network_id : Nat
  display_name : Nat
  port_count : Int
  transport_zone : Nat
  transport_connector : Nat
  segment_id : Option Nat
  deriving DecidableEq, Repr

structure LSwitchPortRow where
  port_id : Nat
  switch_id : Nat
  deriving DecidableEq, Repr

structure SecurityProfileRow where
  id : Nat
  nvp_id : Nat
  deriving DecidableEq, Repr

structure CacheState where
  switches : List LSwitchRow
  ports : List LSwitchPortRow
  profiles : List SecurityProfileRow
  deriving DecidableEq, Repr

/-- The driver's world: the session's cache, the fresh-identifier
counter, and the number of remote calls attempted so far (indexing the
oracle). -/
structure World where
  cache : CacheState
  next_uuid : Nat
  calls : Nat
  deriving DecidableEq, Repr

structure NvpConfig where
  max_ports_per_switch : Int
  max_rules_per_group : LVal
  deriving DecidableEq, Repr

inductive DrvErr
  | badNVPState
  | remoteFailure
  | attrError
  | driverLimitReached
  deriving DecidableEq, Repr

/-- Result of a driver operation: the world as left on success, or the
error with the world as it stood when the exception was raised. -/
abbrev DrvResult := Except (DrvErr × World) World

/-- One remote controller call; the oracle decides success of the call
with the current index. -/
def remote_call (oracle : Nat → Bool) (w : World) :
    Except (DrvErr × World) World :=
  let w2 := { w with calls := w.calls + 1 }
  if oracle w.calls then .ok w2 else .error (.remoteFailure, w2)

/-- `OptimizedNVPDriver._lswitch_select_first`: the source builds the
network filter but discards it (`query.filter(...)` is not reassigned),
so the first switch of the whole cache is returned, whatever its
network. -/
def lswitch_select_first (c : CacheState) (network_id : Nat) :
    Option LSwitchRow :=
  c.switches.head?

/-- First switch with the minimal port count, among a list
(`query.order_by(LSwitch.port_count).first()`). -/
def select_min_count (l : List LSwitchRow) : Option LSwitchRow :=
  l.foldl
    (fun acc s =>
      match acc with
      | none => some s
      | some m => if s.port_count < m.port_count then some s else acc)
    none

/-- `OptimizedNVPDriver._lswitch_select_free`: switches of the network
with `port_count` strictly below the configured limit, least-loaded
first. -/
def lswitch_select_free (c : CacheState) (network_id : Nat) (limit : Int) :
    Option LSwitchRow :=
  select_min_count
    (c.switches.filter
      (fun s =>
        decide (s.port_count < limit) && decide (s.network_id = network_id)))

/-- `OptimizedNVPDriver._lswitch_select_open`. -/
def opt_lswitch_select_open (c : CacheState) (network_id : Nat)
    (limit : Int) : Option Nat :=
  if limit = 0 then (lswitch_select_first c network_id).map (·.nvp_id)
  else (lswitch_select_free c network_id limit).map (·.nvp_id)

/-- `OptimizedNVPDriver._lswitch_select_by_nvp_id`. -/
def lswitch_select_by_nvp_id (c : CacheState) (nvp_id : Nat) :
    Option LSwitchRow :=
  c.switches.find? (fun s => decide (s.nvp_id = nvp_id))

/-- `OptimizedNVPDriver._lport_select_by_id`. -/
def lport_select_by_id (c : CacheState) (port_id : Nat) :
    Option LSwitchPortRow :=
  c.ports.find? (fun p => decide (p.port_id = port_id))

/-- The switch attributes `OptimizedNVPDriver._get_network_details` copies
from the first cached switch. -/
structure NetworkDetails where
  network_name : Nat
  phys_net : Nat
  phys_type : Nat
  segment_id : Option Nat
  deriving DecidableEq, Repr

/-- `OptimizedNVPDriver._get_network_details`: attributes of the switch
found by `_lswitch_select_first`, `none` when the cache has no switch. -/
def get_network_details (c : CacheState) (network_id : Nat) :
    Option NetworkDetails :=
  (lswitch_select_first c network_id).map
    (fun sw =>
      { network_name := sw.display_name, phys_net := sw.transport_zone,
        phys_type := sw.transport_connector, segment_id := sw.segment_id })

/-- `OptimizedNVPDriver._lswitch_delete`: read the cached switch, delete
the remote switch, then delete the cache row (`session.delete(None)`
raises after the remote call when the row is missing). -/
def drv_lswitch_delete (oracle : Nat → Bool) (w : World) (uuid : Nat) :
    DrvResult :=
  let sw := lswitch_select_by_nvp_id w.cache uuid
  match remote_call oracle w with
  | .error e => .error e
  | .ok w1 =>
    match sw with
    | none => .error (.attrError, w1)
    | some _ =>
      .ok { w1 with
              cache := { w1.cache with
                switches :=
                  remove_first (fun s => decide (s.nvp_id = uuid))
                    w1.cache.switches } }

/-- The session mutation mirroring a created port: add the `LSwitchPort`
row (its remote uuid drawn fresh) and increment the owning switch's
counter. -/
def create_port_mirror_apply (w1 : World) (uuid : Nat)
    (sw : LSwitchRow) : World :=
  { w1 with
      cache := { w1.cache with
        ports := w1.cache.ports ++ [{ port_id := w1.next_uuid,
                                      switch_id := sw.id }],
        switches :=
          update_first (fun s => decide (s.nvp_id = uuid))
            (fun s => { s with port_count := s.port_count + 1 })
            w1.cache.switches },
      next_uuid := w1.next_uuid + 1 }

/-- The local mirror step of `OptimizedNVPDriver.create_port` after the
remote port create returned: find the switch by its remote uuid
(`AttributeError` when missing), then apply the session mutation. -/
def create_port_mirror (w1 : World) (uuid : Nat) : DrvResult :=
  match lswitch_select_by_nvp_id w1.cache uuid with
  | none => .error (.attrError, w1)
  | some sw => .ok (create_port_mirror_apply w1 uuid sw)

/-- Tail of `OptimizedNVPDriver.create_port` once a switch uuid is at
hand: create the remote port, then mirror it locally. -/
def create_port_post (oracle : Nat → Bool) (w : World) (uuid : Nat) :
    DrvResult :=
  match remote_call oracle w with
  | .error e => .error e
  | .ok w1 => create_port_mirror w1 uuid

/-- The session mutation mirroring a created switch
(`_lswitch_create_optimized`): add the `LSwitch` row with `port_count`
0 and fresh local id and remote uuid; returns the new world and the new
switch's remote uuid. -/
def lswitch_create_mirror (w1 : World) (network_id : Nat)
    (det : NetworkDetails) : World × Nat :=
  let sw : LSwitchRow :=
    { id := w1.next_uuid, nvp_id := w1.next_uuid + 1,
      network_id := network_id, display_name := det.network_name,
      port_count := 0, transport_zone := det.phys_net,
      transport_connector := det.phys_type,
      segment_id := det.segment_id }
  ({ w1 with
       cache := { w1.cache with
         switches := w1.cache.switches ++ [sw] },
       next_uuid := w1.next_uuid + 2 }, sw.nvp_id)

/-- `OptimizedNVPDriver.create_port` (via `NVPDriver.create_port` and
`_create_or_choose_lswitch`): select an open cached switch, else copy the
first cached switch's attributes (`BadNVPState` when there is none) and
create a new remote switch mirrored into the cache; then create the
port. -/
def drv_create_port (oracle : Nat → Bool) (cfg : NvpConfig) (w : World)
    (network_id : Nat) : DrvResult :=
  match opt_lswitch_select_open w.cache network_id
      cfg.max_ports_per_switch with
  | some uuid => create_port_post oracle w uuid
  | none =>
    match get_network_details w.cache network_id with
    | none => .error (.badNVPState, w)
    | some det =>
      match remote_call oracle w with
      | .error e => .error e
      | .ok w1 =>
        create_port_post oracle (lswitch_create_mirror w1 network_id det).1
          (lswitch_create_mirror w1 network_id det).2

/-- The session mutation mirroring a deleted port: delete the cache row
and decrement the switch's counter. -/
def delete_port_mirror_apply (w1 : World) (port_id : Nat)
    (sw : LSwitchRow) : World :=
  { w1 with
      cache := { w1.cache with
        ports :=
          remove_first (fun q => decide (q.port_id = port_id))
            w1.cache.ports,
        switches :=
          update_first (fun s => decide (s.id = sw.id))
            (fun s => { s with port_count := s.port_count - 1 })
            w1.cache.switches } }

/-- The local mirror step of `OptimizedNVPDriver.delete_port` after the
remote port delete returned: apply the session mutation; when the
counter reaches zero, delete the switch as well (a further remote
call). -/
def delete_port_mirror (oracle : Nat → Bool) (w1 : World) (port_id : Nat)
    (sw : LSwitchRow) : DrvResult :=
  if sw.port_count - 1 = 0 then
    drv_lswitch_delete oracle (delete_port_mirror_apply w1 port_id sw)
      sw.nvp_id
  else .ok (delete_port_mirror_apply w1 port_id sw)

/-- `OptimizedNVPDriver.delete_port`: find the cached port and its
switch, delete the remote port, then delete the cache row and decrement
the counter; when the counter reaches zero, delete the switch as well. -/
def drv_delete_port (oracle : Nat → Bool) (w : World) (port_id : Nat) :
    DrvResult :=
  match lport_select_by_id w.cache port_id with
  | none => .error (.attrError, w)
  | some p =>
    match w.cache.switches.find? (fun s => decide (s.id = p.switch_id)) with
    | none => .error (.attrError, w)
    | some sw =>
      match remote_call oracle w with
      | .error e => .error e
      | .ok w1 => delete_port_mirror oracle w1 port_id sw

/-- The parent's quota check in `create_security_group`:
`limit is not False and len(ingress) + len(egress) > limit` (Python
compares `True` as 1). -/
def group_rule_limit_hit (v : LVal) (total : Nat) : Bool :=
  match v with
  | .flag false => false
  | .flag true => decide ((total : Int) > 1)
  | .num n => decide ((total : Int) > n)

/-- `OptimizedNVPDriver.create_security_group` (via the parent's quota
check and remote create, then `session.add`). -/
def drv_create_security_group (oracle : Nat → Bool) (cfg : NvpConfig)
    (w : World) (group_id ingress_count egress_count : Nat) : DrvResult :=
  if group_rule_limit_hit cfg.max_rules_per_group
      (ingress_count + egress_count) then
    .error (.driverLimitReached, w)
  else
    match remote_call oracle w with
    | .error e => .error e
    | .ok w1 =>
      .ok { w1 with
              cache := { w1.cache with
                profiles := w1.cache.profiles ++
                  [{ id := group_id, nvp_id := w1.next_uuid }] },
              next_uuid := w1.next_uuid + 1 }

/-- `OptimizedNVPDriver.delete_security_group`: the overridden
`_get_security_group_id` reads the cached profile (`AttributeError` when
missing), the parent deletes the remote profile, then the cache row is
deleted. -/
def drv_delete_security_group (oracle : Nat → Bool) (w : World)
    (group_id : Nat) : DrvResult :=
  match w.cache.profiles.find? (fun g => decide (g.id = group_id)) with
  | none => .error (.attrError, w)
  | some _ =>
    match remote_call oracle w with
    | .error e => .error e
    | .ok w1 =>
      .ok { w1 with
              cache := { w1.cache with
                profiles :=
                  remove_first (fun g => decide (g.id = group_id))
                    w1.cache.profiles } }

/-- The cache-mutating operations of the optimized driver. -/
inductive DrvOp
  | createPort (network_id : Nat)
  | deletePort (port_id : Nat)
  | lswitchDelete (uuid : Nat)
  | createSecGroup (group_id ingress_count egress_count : Nat)
  | deleteSecGroup (group_id : Nat)
  deriving DecidableEq, Repr

def run_drv_op (oracle : Nat → Bool) (cfg : NvpConfig) (w : World) :
    DrvOp → DrvResult
  | .createPort net => drv_create_port oracle cfg w net
  | .deletePort pid => drv_delete_port oracle w pid
  | .lswitchDelete uuid => drv_lswitch_delete oracle w uuid
  | .createSecGroup gid i e => drv_create_security_group oracle cfg w gid i e
  | .deleteSecGroup gid => drv_delete_security_group oracle w gid

/-- The world an operation leaves behind, whether it succeeded or
raised. -/
def drv_result_world : DrvResult → World
  | .ok w => w
  | .error (_, w) => w

def drv_result_ok : DrvResult → Bool
  | .ok _ => true
  | .error _ => false

/-- A sequence of driver operations, each starting from the world the
previous one left behind. -/
def run_drv_ops (oracle : Nat → Bool) (cfg : NvpConfig) (w : World) :
    List DrvOp → World
  | [] => w
  | op :: ops =>
    run_drv_ops oracle cfg (drv_result_world (run_drv_op oracle cfg w op)) ops

/-! ## Baseline switch selection (`NVPDriver._lswitch_select_open`) -/

/-- One element of the remote status query's `results`, with the
`_relations.LogicalSwitchStatus.lport_count` relation flattened. -/
structure LSwitchStatusRec where
  uuid : Nat
  lport_count : Int
  deriving DecidableEq, Repr

/-- `NVPDriver._lswitch_select_open(context, switches=...)`: first result
whose port count is below the limit (any result when the limit is 0);
`None` when `switches` is `None` or no result qualifies. -/
def base_lswitch_select_open (limit : Int)
    (switches : Option (List LSwitchStatusRec)) : Option Nat :=
  match switches with
  | none => none
  | some results =>
    (results.find?
      (fun r => decide (limit = 0) || decide (r.lport_count < limit))).map
      (·.uuid)

/-- The remote query results for a network whose switches the cache
mirrors exactly: the cache's switches of that network, in order, with
`uuid = nvp_id` and `lport_count = port_count`. -/
def mirror_results (c : CacheState) (network_id : Nat) :
    List LSwitchStatusRec :=
  (c.switches.filter (fun s => decide (s.network_id = network_id))).map
    (fun s => { uuid := s.nvp_id, lport_count := s.port_count })

/-! ## Lemmas about the sequential-assignment loops -/

theorem next_ip_loop_spec {st : IpamState} {net tenant : Nat}
    {pol : Nat → Bool} {cursor fuel ip c2 : Nat}
    (h : next_ip_loop st net tenant pol cursor fuel = some (ip, c2)) :
    c2 = ip + 1 ∧ cursor ≤ ip ∧ pol ip = false ∧
      ip_address_find_tenant st net ip tenant = none := by
  induction fuel generalizing cursor with
  | zero => simp [next_ip_loop] at h
  | succ n ih =>
    rw [next_ip_loop] at h
    by_cases hp : pol cursor
    · simp only [hp, if_true] at h
      rcases ih h with ⟨h1, h2, h3, h4⟩
      exact ⟨h1, Nat.le_of_succ_le h2, h3, h4⟩
    · simp only [hp, if_false, Bool.false_eq_true] at h
      cases hf : ip_address_find_tenant st net cursor tenant with
      | some r =>
        rw [hf] at h
        rcases ih h with ⟨h1, h2, h3, h4⟩
        exact ⟨h1, Nat.le_of_succ_le h2, h3, h4⟩
      | none =>
        rw [hf] at h
        injection h with h'
        injection h' with h1 h2
        subst h1
        subst h2
        exact ⟨rfl, Nat.le_refl _, Bool.eq_false_iff.mpr hp, hf⟩

theorem next_ip_loop_le {st : IpamState} {net tenant : Nat}
    {pol : Nat → Bool} {cursor fuel ip c2 : Nat}
    (h : next_ip_loop st net tenant pol cursor fuel = some (ip, c2)) :
    ∀ a, cursor ≤ a → pol a = false →
      ip_address_find_tenant st net a tenant = none → ip ≤ a := by
  induction fuel generalizing cursor with
  | zero => simp [next_ip_loop] at h
  | succ n ih =>
    intro a ha hpa hfa
    rw [next_ip_loop] at h
    by_cases hp : pol cursor
    · have hne : cursor ≠ a := by
        intro he; rw [he, hpa] at hp; exact Bool.noConfusion hp
      simp only [hp, if_true] at h
      exact ih h a (Nat.lt_of_le_of_ne ha (fun he => hne he)) hpa hfa
    · simp only [hp, if_false, Bool.false_eq_true] at h
      cases hf : ip_address_find_tenant st net cursor tenant with
      | some r =>
        rw [hf] at h
        have hne : cursor ≠ a := by
          intro he; rw [he, hfa] at hf; exact Option.noConfusion hf
        exact ih h a (Nat.lt_of_le_of_ne ha (fun he => hne he)) hpa hfa
      | none =>
        rw [hf] at h
        injection h with h'
        injection h' with h1 h2
        subst h1
        exact ha

theorem next_mac_loop_spec {st : MacState} {tenant cursor fuel addr c2 : Nat}
    (h : next_mac_loop st tenant cursor fuel = some (addr, c2)) :
    c2 = addr + 1 ∧ cursor ≤ addr ∧
      mac_address_find_tenant st tenant addr = none := by
  induction fuel generalizing cursor with
  | zero => simp [next_mac_loop] at h
  | succ n ih =>
    rw [next_mac_loop] at h
    cases hf : mac_address_find_tenant st tenant cursor with
    | some m =>
      rw [hf] at h
      rcases ih h with ⟨h1, h2, h3⟩
      exact ⟨h1, Nat.le_of_succ_le h2, h3⟩
    | none =>
      rw [hf] at h
      injection h with h'
      injection h' with h1 h2
      subst h1
      subst h2
      exact ⟨rfl, Nat.le_refl _, hf⟩

theorem next_mac_loop_blocked {st : MacState} {tenant cursor fuel addr c2 : Nat}
    (h : next_mac_loop st tenant cursor fuel = some (addr, c2)) :
    ∀ c, cursor ≤ c → c < addr →
      (mac_address_find_tenant st tenant c).isSome = true := by
  induction fuel generalizing cursor with
  | zero => simp [next_mac_loop] at h
  | succ n ih =>
    intro c hc hca
    rw [next_mac_loop] at h
    cases hf : mac_address_find_tenant st tenant cursor with
    | some m =>
      rw [hf] at h
      rcases Nat.lt_or_ge cursor c with hlt | hge
      · exact ih h c hlt hca
      · have : c = cursor := Nat.le_antisymm hge hc
        rw [this, hf]; rfl
    | none =>
      rw [hf] at h
      injection h with h'
      injection h' with h1 h2
      subst h1
      exact absurd hca (Nat.not_lt.mpr hc)

/-! ## C7: provider-network validation and SegmentIdUnsupported -/

/-- C7 counterexample: the claim says `flat` is a bridging family, so a
flat network with `physical_network` and a `segment_id` must not fail
with SegmentIdUnsupported; the code's guard tuple is `("bridge", "vlan")`
and it does fail (the repository's own test
`test_config_provider_attrs_non_vlan_net_with_segment_id_fails` expects
exactly this). -/
theorem c7_flat_segment_counterexample :
    config_provider_attrs (fun _ => 1) (some "net_uuid") (some "flat")
      (some 10) = .error .segmentIdUnsupported := by
  rfl

/-- C7 as amended: with both provider parameters present, validation
fails with SegmentIdUnsupported exactly when a (truthy) segment id is
given and the network type is neither `bridge` nor `vlan`; in
particular `flat` with a segment id does fail. -/
theorem c7_segment_id_unsupported_iff (tz_result_count : String → Nat)
    (p t : String) (segment_id : Option Nat) :
    config_provider_attrs tz_result_count (some p) (some t) segment_id =
        .error .segmentIdUnsupported ↔
      (segment_truthy segment_id = true ∧ t ≠ "bridge" ∧ t ≠ "vlan") := by
  constructor
  · intro h
    by_cases hc : ¬(t = "bridge" ∨ t = "vlan") ∧ segment_truthy segment_id = true
    · exact ⟨hc.2, fun h1 => hc.1 (Or.inl h1), fun h2 => hc.1 (Or.inr h2)⟩
    · exfalso
      rw [config_provider_attrs, if_neg hc] at h
      by_cases hv : t = "vlan" ∧ ¬segment_truthy segment_id = true
      · rw [if_pos hv] at h
        exact ProvErr.noConfusion (Except.error.inj h)
      · rw [if_neg hv] at h
        split at h
        · exact ProvErr.noConfusion (Except.error.inj h)
        · by_cases hz : tz_result_count p = 0
          · rw [if_pos hz] at h
            exact ProvErr.noConfusion (Except.error.inj h)
          · rw [if_neg hz] at h
            exact Except.noConfusion h
  · intro ⟨hs, h1, h2⟩
    rw [config_provider_attrs,
      if_pos (⟨fun ho => ho.elim h1 h2, hs⟩ :
        ¬(t = "bridge" ∨ t = "vlan") ∧ segment_truthy segment_id = true)]

/-! ## C6: deallocate_ip_address and deallocated_at -/

def c6_ref_only : PortIPRef :=
  { address := 1, deallocated := false, deallocated_at := none,
    ports := [7] }

def c6_ref_shared : PortIPRef :=
  { address := 2, deallocated := false, deallocated_at := none,
    ports := [7, 9] }

/-- C6 evaluated at the failing input: a port referencing one address as
its only port and one shared address.  The only-port address gets its
deallocated flag set but its `deallocated_at` stays unset (the function
takes no clock at all), the shared address is left untouched, and the
port's reference list is cleared. -/
theorem c6_deallocate_sets_flag_but_no_timestamp :
    deallocate_ip_address [c6_ref_only, c6_ref_shared] =
      ([{ c6_ref_only with deallocated := true }, c6_ref_shared], []) ∧
      ({ c6_ref_only with deallocated := true }).deallocated_at = none := by
  exact ⟨rfl, rfl⟩

/-! ## C1: successful IP allocations, CIDR membership and the exclusion
set -/

instance {ε α : Type} [DecidableEq ε] [DecidableEq α] :
    DecidableEq (Except ε α)
  | .ok a, .ok b =>
    if h : a = b then .isTrue (by rw [h])
    else .isFalse (by intro he; injection he with he'; exact h he')
  | .ok _, .error _ => .isFalse (by intro he; exact Except.noConfusion he)
  | .error _, .ok _ => .isFalse (by intro he; exact Except.noConfusion he)
  | .error a, .error b =>
    if h : a = b then .isTrue (by rw [h])
    else .isFalse (by intro he; injection he with he'; exact h he')

/-- Address of a successful IP allocation. -/
def alloc_ip_result_address :
    Except IpamErr (IPAddressRow × IpamState) → Option Nat
  | .ok (r, _) => some r.address
  | .error _ => none

/-- Address of a successful MAC allocation. -/
def alloc_mac_result_address :
    Except MacErr (MacRow × MacState) → Option Nat
  | .ok (m, _) => some m.address
  | .error _ => none

/-- C1 as amended, for calls with no requested address.  The reclaim
fast path returns the stored row's address unchanged (so it satisfies the
CIDR/exclusion property only insofar as the stored row did — the code
re-checks nothing there); the sequential path never returns a member of
the effective exclusion set, and it returns an address inside the chosen
subnet's CIDR provided the cursor starts at or after the CIDR base and
some address of the CIDR at or beyond the cursor is neither excluded nor
already recorded for this network and tenant.  (The unconditional
within-CIDR claim fails: see the counterexample.) -/
theorem c1_allocate_address_policy (st : IpamState)
    (tenant net reuse_after now : Nat) (version : Option Nat) (fuel : Nat)
    (row : IPAddressRow) (st2 : IpamState)
    (hok : allocate_ip_address st tenant net reuse_after now version none
        fuel = .ok (row, st2)) :
    (∀ i r, ip_address_find_deallocated st net reuse_after now none =
        some (i, r) → row.address = r.address) ∧
    (ip_address_find_deallocated st net reuse_after now none = none →
      ∀ j sn, choose_available_subnet st net version none = some (j, sn) →
        ip_policy_member sn row.address = false ∧
        (net_first sn.cidr_address sn.cidr_prefix_length (subnet_width sn) ≤
            sn.next_auto_assign_ip →
          (∃ a, subnet_cidr_member sn a = true ∧
            sn.next_auto_assign_ip ≤ a ∧ ip_policy_member sn a = false ∧
            ip_address_find_tenant st net a tenant = none) →
          subnet_cidr_member sn row.address = true)) := by
  rw [allocate_ip_address] at hok
  cases hfast : ip_address_find_deallocated st net reuse_after now none with
  | some ir =>
    obtain ⟨i, r⟩ := ir
    simp only [hfast] at hok
    have hX := Except.ok.inj hok
    have hrow : ({ r with deallocated := false, deallocated_at := none } :
        IPAddressRow) = row := congrArg Prod.fst hX
    constructor
    · intro i2 r2 hfind
      injection hfind with h'
      injection h' with hi hr
      subst hr
      rw [← hrow]
    · intro hnone
      exact Option.noConfusion hnone
  | none =>
    simp only [hfast] at hok
    cases hch : choose_available_subnet st net version none with
    | none =>
      simp only [hch] at hok
      exact Except.noConfusion hok
    | some jsn =>
      obtain ⟨j, sn⟩ := jsn
      simp only [hch] at hok
      cases hloop : next_ip_loop st net tenant (ip_policy_member sn)
          sn.next_auto_assign_ip fuel with
      | none =>
        simp only [hloop] at hok
        exact Except.noConfusion hok
      | some pc =>
        obtain ⟨ip, c2⟩ := pc
        simp only [hloop] at hok
        have hX := Except.ok.inj hok
        have hrow : mk_ip_row ip sn net tenant = row := congrArg Prod.fst hX
        obtain ⟨hc2, hcur, hpol, hfind⟩ := next_ip_loop_spec hloop
        constructor
        · intro i2 r2 hfind2
          exact Option.noConfusion hfind2
        · intro _ j2 sn2 hch2
          injection hch2 with h'
          injection h' with hj hsn
          subst hsn
          have haddr : row.address = ip := by rw [← hrow]; rfl
          constructor
          · rw [haddr]; exact hpol
          · intro hfirst ⟨a, ha1, ha2, ha3, ha4⟩
            have hle := next_ip_loop_le hloop a ha2 ha3 ha4
            simp only [subnet_cidr_member, in_network, Bool.and_eq_true,
              decide_eq_true_eq] at ha1 ⊢
            rw [haddr]
            exact ⟨Nat.le_trans hfirst hcur,
              Nat.lt_of_le_of_lt hle ha1.2⟩

/-- A /30 subnet whose cursor has run past the CIDR (all four addresses
were handed out, one was later released into quarantine). -/
def c1cex_subnet : Subnet :=
  { id := 1, network_id := 1, cidr_address := 0, cidr_prefix_length := 30,
    ip_version := 4, next_auto_assign_ip := 4, ip_policy := none,
    network_ip_policy := none }

def c1cex_row (a : Nat) : IPAddressRow :=
  { address := a, subnet_id := 1, network_id := 1, tenant_id := 1,
    version := 4, deallocated := false, deallocated_at := none }

def c1cex_st : IpamState :=
  { subnets := [c1cex_subnet],
    ips := [c1cex_row 0, c1cex_row 1, c1cex_row 2,
      { c1cex_row 3 with deallocated := true, deallocated_at := some 100 }] }

/-- C1 counterexample: the deallocated address is still quarantined
(`now − deallocated_at = 50 < reuse_after = 300`), so the subnet shows
free capacity (3 allocated of 4) and the call takes the sequential path;
the cursor stands at 4 and the call succeeds returning address 4, which
is outside the subnet's CIDR `0/30` — refuting the claim that every
successful allocation lies within its subnet's CIDR. -/
theorem c1_out_of_cidr_counterexample :
    alloc_ip_result_address
        (allocate_ip_address c1cex_st 1 1 300 150 none none 10) = some 4 ∧
      subnet_cidr_member c1cex_subnet 4 = false := by
  decide

def c1w_subnet : Subnet :=
  { id := 1, network_id := 1, cidr_address := 167772160,
    cidr_prefix_length := 24, ip_version := 4,
    next_auto_assign_ip := 167772160,
    ip_policy := some { exclude := [{ address := 167772160,
                                      prefix_length := 28 }] },
    network_ip_policy := none }

def c1w_st : IpamState := { subnets := [c1w_subnet], ips := [] }

def c1w_row : IPAddressRow :=
  { address := 167772176, subnet_id := 1, network_id := 1, tenant_id := 1,
    version := 4, deallocated := false, deallocated_at := none }

def c1w_st2 : IpamState :=
  { subnets := [{ c1w_subnet with next_auto_assign_ip := 167772177 }],
    ips := [c1w_row] }

/-- C1 witness: the spec's own scenario — subnet `10.0.0.0/24` with
exclusion `10.0.0.0/28` — allocates `10.0.0.16` (167772176), which the
amended theorem certifies to be outside the exclusion set and inside the
CIDR. -/
theorem c1_allocate_address_policy_witness :
    ip_policy_member c1w_subnet 167772176 = false ∧
      subnet_cidr_member c1w_subnet 167772176 = true := by
  have h := c1_allocate_address_policy c1w_st 1 1 300 1000 none 20 c1w_row
    c1w_st2 (by decide)
  have h2 := h.2 (by decide) 0 c1w_subnet (by decide)
  exact ⟨h2.1, h2.2 (by decide)
    ⟨167772176, by decide, by decide, by decide, by decide⟩⟩

/-! ## C4: quarantined addresses and reuse_after -/

theorem find_tenant_none_no_row {st : IpamState} {net tenant : Nat}
    {r : IPAddressRow}
    (h : ip_address_find_tenant st net r.address tenant = none)
    (hr : r ∈ st.ips) (hnet : r.network_id = net)
    (hten : r.tenant_id = tenant) : False := by
  rw [ip_address_find_tenant] at h
  have hx := List.find?_eq_none.mp h r hr
  simp [hnet, hten] at hx

/-- C4 as amended: a deallocated address still inside its quarantine
window is never returned by `allocate_ip_address` when the quarantined
row belongs to the requesting tenant and is the network's only row
bearing that address.  (Without the same-tenant restriction the claim
fails: the sequential path's duplicate check filters by tenant, see the
counterexample.) -/
theorem c4_quarantine_respected (st : IpamState)
    (tenant net reuse_after now : Nat) (version : Option Nat)
    (ip_arg : Option Nat) (fuel : Nat) (row : IPAddressRow)
    (st2 : IpamState) (r : IPAddressRow) (t : Nat)
    (hr : r ∈ st.ips) (hts : r.deallocated_at = some t)
    (hq : now - t < reuse_after) (hten : r.tenant_id = tenant)
    (hnet : r.network_id = net)
    (huniq : ∀ r2 ∈ st.ips, r2.network_id = net →
      r2.address = r.address → r2 = r)
    (hok : allocate_ip_address st tenant net reuse_after now version ip_arg
        fuel = .ok (row, st2)) :
    row.address ≠ r.address := by
  rw [allocate_ip_address] at hok
  cases hfast : ip_address_find_deallocated st net reuse_after now ip_arg with
  | some ir =>
    obtain ⟨i, r2⟩ := ir
    simp only [hfast] at hok
    have hrow : ({ r2 with deallocated := false, deallocated_at := none } :
        IPAddressRow) = row := congrArg Prod.fst (Except.ok.inj hok)
    intro heq
    have haddr : r2.address = r.address := by rw [← hrow] at heq; exact heq
    obtain ⟨hmem, hpred⟩ := find_idx_row_some hfast
    simp only [Bool.and_eq_true, decide_eq_true_eq] at hpred
    have hr2 : r2 = r := huniq r2 hmem hpred.1.1 haddr
    subst hr2
    rw [reuse_eligible, hts] at hpred
    simp only [Bool.and_eq_true, decide_eq_true_eq] at hpred
    exact absurd hpred.1.2.2 (Nat.not_le.mpr hq)
  | none =>
    simp only [hfast] at hok
    cases hch : choose_available_subnet st net version ip_arg with
    | none =>
      simp only [hch] at hok
      exact Except.noConfusion hok
    | some jsn =>
      obtain ⟨j, sn⟩ := jsn
      simp only [hch] at hok
      cases ip_arg with
      | some a =>
        cases hfindt : ip_address_find_tenant st net a tenant with
        | some x =>
          simp only [hfindt] at hok
          exact Except.noConfusion hok
        | none =>
          simp only [hfindt] at hok
          have hrow : mk_ip_row a sn net tenant = row :=
            congrArg Prod.fst (Except.ok.inj hok)
          intro heq
          have haddr : a = r.address := by rw [← hrow] at heq; exact heq
          rw [haddr] at hfindt
          exact find_tenant_none_no_row hfindt hr hnet hten
      | none =>
        cases hloop : next_ip_loop st net tenant (ip_policy_member sn)
            sn.next_auto_assign_ip fuel with
        | none =>
          simp only [hloop] at hok
          exact Except.noConfusion hok
        | some pc =>
          obtain ⟨ip, c2⟩ := pc
          simp only [hloop] at hok
          have hrow : mk_ip_row ip sn net tenant = row :=
            congrArg Prod.fst (Except.ok.inj hok)
          obtain ⟨hc2, hcur, hpol, hfind⟩ := next_ip_loop_spec hloop
          intro heq
          have haddr : ip = r.address := by rw [← hrow] at heq; exact heq
          rw [haddr] at hfind
          exact find_tenant_none_no_row hfind hr hnet hten

def c4cex_subnet : Subnet :=
  { id := 1, network_id := 1, cidr_address := 0, cidr_prefix_length := 30,
    ip_version := 4, next_auto_assign_ip := 0, ip_policy := none,
    network_ip_policy := none }

/-- Address 0, deallocated by tenant 2 at time 0 and still quarantined at
`now = 10` with `reuse_after = 300`. -/
def c4cex_quarantined : IPAddressRow :=
  { address := 0, subnet_id := 1, network_id := 1, tenant_id := 2,
    version := 4, deallocated := true, deallocated_at := some 0 }

def c4cex_st : IpamState :=
  { subnets := [c4cex_subnet], ips := [c4cex_quarantined] }

/-- C4 counterexample: tenant 1 allocates on the same network while
tenant 2's released address 0 is still quarantined; the reclaim fast path
correctly skips it, but the sequential path's duplicate check is
tenant-scoped, so the call returns address 0 anyway — the quarantined
address is returned before `now − deallocated_at ≥ reuse_after`. -/
theorem c4_quarantine_counterexample :
    alloc_ip_result_address
        (allocate_ip_address c4cex_st 1 1 300 10 none none 10) = some 0 ∧
      c4cex_quarantined.address = 0 ∧
      c4cex_quarantined.deallocated = true ∧
      (10 : Nat) - 0 < 300 := by
  decide

def c4w_subnet : Subnet :=
  { id := 1, network_id := 1, cidr_address := 0, cidr_prefix_length := 30,
    ip_version := 4, next_auto_assign_ip := 0, ip_policy := none,
    network_ip_policy := none }

def c4w_quarantined : IPAddressRow :=
  { address := 0, subnet_id := 1, network_id := 1, tenant_id := 1,
    version := 4, deallocated := true, deallocated_at := some 900 }

def c4w_st : IpamState :=
  { subnets := [c4w_subnet], ips := [c4w_quarantined] }

def c4w_row : IPAddressRow :=
  { address := 1, subnet_id := 1, network_id := 1, tenant_id := 1,
    version := 4, deallocated := false, deallocated_at := none }

def c4w_st2 : IpamState :=
  { subnets := [{ c4w_subnet with next_auto_assign_ip := 2 }],
    ips := [c4w_quarantined, c4w_row] }

/-- C4 witness: the same tenant's quarantined address 0
(`now − deallocated_at = 100 < 300`) is not returned — the call yields
address 1. -/
theorem c4_quarantine_respected_witness :
    alloc_ip_result_address
        (allocate_ip_address c4w_st 1 1 300 1000 none none 10) ≠
      some c4w_quarantined.address := by
  have h := c4_quarantine_respected c4w_st 1 1 300 1000 none none 10
    c4w_row c4w_st2 c4w_quarantined 900 (by decide) (by decide) (by decide)
    (by decide) (by decide) (by decide) (by decide)
  have hrun : alloc_ip_result_address
      (allocate_ip_address c4w_st 1 1 300 1000 none none 10) =
        some c4w_row.address := by decide
  rw [hrun]
  intro he
  injection he with he'
  exact h he'


/-! ## C5: the MAC cursor-advance skip check -/

/-- C5 as amended: when a sequential MAC assignment succeeds (no reclaim
hit, range chosen), the cursor-advance loop skips a candidate value
exactly when a MAC row with that value exists for the *requesting
tenant* (in any range and whatever its deallocated flag) — the check is
tenant-scoped, not tenant-agnostic: the returned value has no row for
the requesting tenant, and every skipped value between the range's
cursor and the returned value has one. -/
theorem c5_mac_skip_is_tenant_scoped (st : MacState)
    (tenant reuse_after now fuel : Nat) (row : MacRow) (st2 : MacState)
    (j : Nat) (rng : MacRange)
    (hfast : mac_address_find_deallocated st reuse_after now none = none)
    (hch : choose_mac_range st none = some (j, rng))
    (hok : allocate_mac_address st tenant reuse_after now none fuel =
      .ok (row, st2)) :
    mac_address_find_tenant st tenant row.address = none ∧
      ∀ c, rng.next_auto_assign_mac ≤ c → c < row.address →
        (mac_address_find_tenant st tenant c).isSome = true := by
  rw [allocate_mac_address] at hok
  simp only [hfast] at hok
  simp only [hch] at hok
  cases hloop : next_mac_loop st tenant rng.next_auto_assign_mac fuel with
  | none =>
    simp only [hloop] at hok
    exact Except.noConfusion hok
  | some pc =>
    obtain ⟨addr, c2⟩ := pc
    simp only [hloop] at hok
    have hrow : (⟨addr, rng.id, tenant, false, none⟩ : MacRow) = row :=
      congrArg Prod.fst (Except.ok.inj hok)
    obtain ⟨hc2, hcur, hfind⟩ := next_mac_loop_spec hloop
    have haddr : row.address = addr := by rw [← hrow]
    constructor
    · rw [haddr]; exact hfind
    · intro c hc1 hcrow
      rw [haddr] at hcrow
      exact next_mac_loop_blocked hloop c hc1 hcrow

def c5cex_range : MacRange :=
  { id := 1, first_address := 0, last_address := 255,
    next_auto_assign_mac := 0 }

/-- MAC value 0, currently allocated to tenant 2 in range 1. -/
def c5cex_other_tenant_mac : MacRow :=
  { address := 0, mac_address_range_id := 1, tenant_id := 2,
    deallocated := false, deallocated_at := none }

def c5cex_st : MacState :=
  { mac_ranges := [c5cex_range], macs := [c5cex_other_tenant_mac] }

/-- C5 counterexample: tenant 1's sequential assignment does *not* skip
value 0 although it is already allocated (to tenant 2) in the range —
the loop's already-allocated check is restricted to the requesting
tenant's MACs, so the claim that it skips values allocated to any tenant
is false. -/
theorem c5_tenant_agnostic_counterexample :
    alloc_mac_result_address
        (allocate_mac_address c5cex_st 1 300 1000 none 10) = some 0 ∧
      c5cex_other_tenant_mac.address = 0 ∧
      c5cex_other_tenant_mac.deallocated = false ∧
      c5cex_other_tenant_mac.tenant_id ≠ 1 := by
  decide

def c5w_range : MacRange :=
  { id := 1, first_address := 0, last_address := 255,
    next_auto_assign_mac := 0 }

def c5w_mac (a : Nat) : MacRow :=
  { address := a, mac_address_range_id := 1, tenant_id := 1,
    deallocated := false, deallocated_at := none }

def c5w_st : MacState :=
  { mac_ranges := [c5w_range], macs := [c5w_mac 0, c5w_mac 1] }

def c5w_row : MacRow :=
  { address := 2, mac_address_range_id := 1, tenant_id := 1,
    deallocated := false, deallocated_at := none }

def c5w_st2 : MacState :=
  { mac_ranges := [{ c5w_range with next_auto_assign_mac := 3 }],
    macs := [c5w_mac 0, c5w_mac 1, c5w_row] }

/-- C5 witness: with the requesting tenant holding MACs 0 and 1, the
loop skips both (each has a row for the tenant) and returns 2 (no row
for the tenant). -/
theorem c5_mac_skip_is_tenant_scoped_witness :
    (mac_address_find_tenant c5w_st 1 0).isSome = true ∧
      mac_address_find_tenant c5w_st 1 2 = none := by
  have h := c5_mac_skip_is_tenant_scoped c5w_st 1 300 1000 10 c5w_row
    c5w_st2 0 c5w_range (by decide) (by decide) (by decide)
  exact ⟨h.2 0 (by decide) (by decide), h.1⟩


/-! ## C9: speculative cursor advance -/

/-- C9: on a successful sequential IP assignment the chosen subnet's
cursor ends exactly one past the returned address (each iteration,
including rejected ones, advanced it by one and nothing reset it), and
it never decreases across the call; the analogous property holds for
`next_auto_assign_mac` in a successful sequential MAC assignment. -/
theorem c9_cursor_one_past_result (st : IpamState)
    (tenant net reuse_after now : Nat) (version : Option Nat) (fuel : Nat)
    (row : IPAddressRow) (st2 : IpamState) (j : Nat) (sn : Subnet)
    (mst : MacState) (tenant2 reuse_after2 now2 fuel2 : Nat)
    (rowm : MacRow) (mst2 : MacState) (jm : Nat) (rngm : MacRange)
    (hfast : ip_address_find_deallocated st net reuse_after now none = none)
    (hch : choose_available_subnet st net version none = some (j, sn))
    (hok : allocate_ip_address st tenant net reuse_after now version none
      fuel = .ok (row, st2))
    (hfastm : mac_address_find_deallocated mst reuse_after2 now2 none = none)
    (hchm : choose_mac_range mst none = some (jm, rngm))
    (hokm : allocate_mac_address mst tenant2 reuse_after2 now2 none fuel2 =
      .ok (rowm, mst2)) :
    (st2.subnets =
        st.subnets.set j { sn with next_auto_assign_ip := row.address + 1 } ∧
      sn.next_auto_assign_ip ≤ row.address + 1) ∧
    (mst2.mac_ranges =
        mst.mac_ranges.set jm
          { rngm with next_auto_assign_mac := rowm.address + 1 } ∧
      rngm.next_auto_assign_mac ≤ rowm.address + 1) := by
  constructor
  · rw [allocate_ip_address] at hok
    simp only [hfast] at hok
    simp only [hch] at hok
    cases hloop : next_ip_loop st net tenant (ip_policy_member sn)
        sn.next_auto_assign_ip fuel with
    | none =>
      simp only [hloop] at hok
      exact Except.noConfusion hok
    | some pc =>
      obtain ⟨ip, c2⟩ := pc
      simp only [hloop] at hok
      have hX := Except.ok.inj hok
      have hrow : mk_ip_row ip sn net tenant = row := congrArg Prod.fst hX
      have hsub : st.subnets.set j { sn with next_auto_assign_ip := c2 } =
          st2.subnets := congrArg IpamState.subnets (congrArg Prod.snd hX)
      obtain ⟨hc2, hcur, hpol, hfind⟩ := next_ip_loop_spec hloop
      have haddr : row.address = ip := by rw [← hrow]; rfl
      constructor
      · rw [← hsub, haddr, hc2]
      · rw [haddr]
        exact Nat.le_succ_of_le hcur
  · rw [allocate_mac_address] at hokm
    simp only [hfastm] at hokm
    simp only [hchm] at hokm
    cases hloop : next_mac_loop mst tenant2 rngm.next_auto_assign_mac
        fuel2 with
    | none =>
      simp only [hloop] at hokm
      exact Except.noConfusion hokm
    | some pc =>
      obtain ⟨addr, c2⟩ := pc
      simp only [hloop] at hokm
      have hX := Except.ok.inj hokm
      have hrow : (⟨addr, rngm.id, tenant2, false, none⟩ : MacRow) = rowm :=
        congrArg Prod.fst hX
      have hrng : mst.mac_ranges.set jm
          { rngm with next_auto_assign_mac := c2 } = mst2.mac_ranges :=
        congrArg MacState.mac_ranges (congrArg Prod.snd hX)
      obtain ⟨hc2, hcur, hfind⟩ := next_mac_loop_spec hloop
      have haddr : rowm.address = addr := by rw [← hrow]
      constructor
      · rw [← hrng, haddr, hc2]
      · rw [haddr]
        exact Nat.le_succ_of_le hcur

def c9w_subnet : Subnet :=
  { id := 1, network_id := 1, cidr_address := 0, cidr_prefix_length := 28,
    ip_version := 4, next_auto_assign_ip := 0, ip_policy := none,
    network_ip_policy := none }

def c9w_ip (a : Nat) : IPAddressRow :=
  { address := a, subnet_id := 1, network_id := 1, tenant_id := 1,
    version := 4, deallocated := false, deallocated_at := none }

def c9w_st : IpamState :=
  { subnets := [c9w_subnet], ips := [c9w_ip 0, c9w_ip 1] }

def c9w_row : IPAddressRow := c9w_ip 2

def c9w_st2 : IpamState :=
  { subnets := [{ c9w_subnet with next_auto_assign_ip := 3 }],
    ips := [c9w_ip 0, c9w_ip 1, c9w_ip 2] }

def c9w_range : MacRange :=
  { id := 1, first_address := 0, last_address := 255,
    next_auto_assign_mac := 0 }

def c9w_mac (a : Nat) : MacRow :=
  { address := a, mac_address_range_id := 1, tenant_id := 1,
    deallocated := false, deallocated_at := none }

def c9w_mst : MacState :=
  { mac_ranges := [c9w_range], macs := [c9w_mac 0, c9w_mac 1] }

def c9w_rowm : MacRow := c9w_mac 2

def c9w_mst2 : MacState :=
  { mac_ranges := [{ c9w_range with next_auto_assign_mac := 3 }],
    macs := [c9w_mac 0, c9w_mac 1, c9w_mac 2] }

/-- C9 witness: with addresses 0 and 1 taken and the cursor at 0, both
allocators return 2 and leave the cursor at 3 = 2 + 1. -/
theorem c9_cursor_one_past_result_witness :
    c9w_st2.subnets =
        c9w_st.subnets.set 0
          { c9w_subnet with next_auto_assign_ip := c9w_row.address + 1 } ∧
      c9w_mst2.mac_ranges =
        c9w_mst.mac_ranges.set 0
          { c9w_range with next_auto_assign_mac := c9w_rowm.address + 1 } := by
  have h := c9_cursor_one_past_result c9w_st 1 1 300 1000 none 10 c9w_row
    c9w_st2 0 c9w_subnet c9w_mst 1 300 1000 10 c9w_rowm c9w_mst2 0 c9w_range
    (by decide) (by decide) (by decide) (by decide) (by decide) (by decide)
  exact ⟨h.1.1, h.2.1⟩

/-! ## C10: the limits_checked scoped override -/

theorem lmap_lookup_set_self (d : LMap) (k : String) (v : LVal) :
    lmap_lookup (lmap_set d k v) k = some v := by
  induction d with
  | nil => simp [lmap_set, lmap_lookup]
  | cons kv t ih =>
    by_cases hk : kv.1 = k
    · simp [lmap_set, hk, lmap_lookup]
    · simp [lmap_set, hk, lmap_lookup, ih]

theorem lmap_lookup_set_ne (d : LMap) (k k2 : String) (v : LVal)
    (h : k2 ≠ k) : lmap_lookup (lmap_set d k v) k2 = lmap_lookup d k2 := by
  induction d with
  | nil => simp [lmap_set, lmap_lookup, Ne.symm h]
  | cons kv t ih =>
    by_cases hk : kv.1 = k
    · have h1 : ¬(k = k2) := fun he => h (Eq.symm he)
      have h2 : ¬(kv.1 = k2) := by rw [hk]; exact h1
      simp [lmap_set, hk, lmap_lookup, h1, h2]
    · by_cases hk2 : kv.1 = k2
      · simp [lmap_set, hk, lmap_lookup, hk2, h]
      · simp [lmap_set, hk, lmap_lookup, hk2, ih]

/-- Keys of an `LMap`, in order. -/
def lmap_keys (d : LMap) : List String := d.map Prod.fst

theorem lmap_keys_set_sub (d : LMap) (k : String) (v : LVal) :
    ∀ k2 ∈ lmap_keys (lmap_set d k v), k2 ∈ lmap_keys d ∨ k2 = k := by
  induction d with
  | nil =>
    intro k2 h
    simp [lmap_set, lmap_keys] at h
    exact Or.inr h
  | cons kv t ih =>
    intro k2 h
    by_cases hk : kv.1 = k
    · simp only [lmap_set, hk, ite_true, lmap_keys, List.map_cons,
        List.mem_cons] at h
      rcases h with h1 | h1
      · exact Or.inr h1
      · exact Or.inl (by
          simp only [lmap_keys, List.map_cons, List.mem_cons]
          exact Or.inr h1)
    · simp only [lmap_set, hk, ite_false, lmap_keys, List.map_cons,
        List.mem_cons] at h
      rcases h with h1 | h1
      · exact Or.inl (by
          simp only [lmap_keys, List.map_cons, List.mem_cons]
          exact Or.inl h1)
      · rcases ih k2 h1 with h2 | h2
        · exact Or.inl (by
            simp only [lmap_keys, List.map_cons, List.mem_cons]
            exact Or.inr (by
              simpa [lmap_keys] using h2))
        · exact Or.inr h2

theorem lmap_nodup_set (d : LMap) (k : String) (v : LVal)
    (h : (lmap_keys d).Nodup) : (lmap_keys (lmap_set d k v)).Nodup := by
  induction d with
  | nil => simp [lmap_set, lmap_keys]
  | cons kv t ih =>
    simp only [lmap_keys, List.map_cons, List.nodup_cons] at h
    by_cases hk : kv.1 = k
    · simp only [lmap_set, hk, ite_true, lmap_keys, List.map_cons,
        List.nodup_cons]
      exact ⟨hk ▸ h.1, h.2⟩
    · simp only [lmap_set, hk, ite_false, lmap_keys, List.map_cons,
        List.nodup_cons]
      refine ⟨?_, ih h.2⟩
      intro hmem
      rcases lmap_keys_set_sub t k v kv.1 hmem with h2 | h2
      · exact h.1 (by simpa [lmap_keys] using h2)
      · exact hk h2

theorem lmap_lookup_eq_none (d : LMap) (k : String)
    (h : k ∉ lmap_keys d) : lmap_lookup d k = none := by
  induction d with
  | nil => rfl
  | cons kv t ih =>
    simp only [lmap_keys, List.map_cons, List.mem_cons] at h
    push_neg at h
    rw [lmap_lookup, if_neg (fun he => h.1 (Eq.symm he))]
    exact ih (by simpa [lmap_keys] using h.2)

theorem lmap_lookup_update (o : LMap) (hnd : (lmap_keys o).Nodup) :
    ∀ (d : LMap) (k : String),
      lmap_lookup (lmap_update d o) k =
        match lmap_lookup o k with
        | some v => some v
        | none => lmap_lookup d k := by
  induction o with
  | nil => intro d k; rfl
  | cons kv t ih =>
    intro d k
    simp only [lmap_keys, List.map_cons, List.nodup_cons] at hnd
    have hupd : lmap_update d (kv :: t) =
        lmap_update (lmap_set d kv.1 kv.2) t := rfl
    rw [hupd, ih (by simpa [lmap_keys] using hnd.2)]
    by_cases hk : k = kv.1
    · subst hk
      have ht : lmap_lookup t kv.1 = none :=
        lmap_lookup_eq_none t kv.1 (by simpa [lmap_keys] using hnd.1)
      simp [ht, lmap_lookup_set_self, lmap_lookup]
    · have hlk : lmap_lookup (kv :: t) k = lmap_lookup t k := by
        rw [lmap_lookup, if_neg (fun he => hk (Eq.symm he))]
      rw [hlk, lmap_lookup_set_ne d kv.1 k kv.2 hk]

/-- Characterisation of the NVP `limits_checked` entry loop when the
names are distinct and all present: it succeeds, `orig_limits` records
each name's original value (and keeps distinct keys), the driver's map
has each name set to `False`, and entries outside the list are
untouched. -/
theorem nvp_enter_spec :
    ∀ (L : List String) (d orig : LMap), L.Nodup →
      (∀ l ∈ L, (lmap_lookup d l).isSome = true) →
      ∃ origf df, nvp_limits_checked_enter orig d L = .ok (origf, df) ∧
        ((lmap_keys orig).Nodup → (lmap_keys origf).Nodup) ∧
        (∀ k, k ∉ L → lmap_lookup origf k = lmap_lookup orig k ∧
          lmap_lookup df k = lmap_lookup d k) ∧
        (∀ l ∈ L, lmap_lookup origf l = lmap_lookup d l ∧
          lmap_lookup df l = some (.flag false)) := by
  intro L
  induction L with
  | nil =>
    intro d orig hnd hall
    exact ⟨orig, d, rfl, fun h => h, fun k _ => ⟨rfl, rfl⟩,
      fun l hl => absurd hl (List.not_mem_nil l)⟩
  | cons l ls ih =>
    intro d orig hnd hall
    have hl := hall l (List.mem_cons_self l ls)
    cases hv : lmap_lookup d l with
    | none => rw [hv] at hl; exact Bool.noConfusion hl
    | some v =>
      have hnotin : l ∉ ls := (List.nodup_cons.mp hnd).1
      have hall2 : ∀ x ∈ ls,
          (lmap_lookup (lmap_set d l (.flag false)) x).isSome = true := by
        intro x hx
        rw [lmap_lookup_set_ne d l x (.flag false)
          (fun he => hnotin (he ▸ hx))]
        exact hall x (List.mem_cons_of_mem l hx)
      obtain ⟨origf, df, heq, hnodup, hout, hin⟩ :=
        ih (lmap_set d l (.flag false)) (lmap_set orig l v)
          (List.nodup_cons.mp hnd).2 hall2
      refine ⟨origf, df, ?_, ?_, ?_, ?_⟩
      · rw [nvp_limits_checked_enter, hv]
        exact heq
      · intro h
        exact hnodup (lmap_nodup_set orig l v h)
      · intro k hk
        have hk1 : k ≠ l := fun he => hk (he ▸ List.mem_cons_self l ls)
        have hk2 : k ∉ ls := fun he => hk (List.mem_cons_of_mem l he)
        obtain ⟨h1, h2⟩ := hout k hk2
        exact ⟨h1.trans (lmap_lookup_set_ne orig l k v hk1),
          h2.trans (lmap_lookup_set_ne d l k (.flag false) hk1)⟩
      · intro x hx
        rcases List.mem_cons.mp hx with rfl | hx2
        · obtain ⟨h1, h2⟩ := hout x hnotin
          exact ⟨h1.trans (lmap_lookup_set_self orig x v) |>.trans hv.symm,
            h2.trans (lmap_lookup_set_self d x (.flag false))⟩
        · obtain ⟨h1, h2⟩ := hin x hx2
          have hxl : x ≠ l := fun he => hnotin (he ▸ hx2)
          exact ⟨h1.trans (lmap_lookup_set_ne d l x (.flag false) hxl), h2⟩

/-- When every name is present, the base driver's entry loop computes
the same pair as the NVP driver's (the `.get(l, False)` default is never
taken). -/
theorem base_enter_eq_nvp :
    ∀ (L : List String) (d orig : LMap),
      (∀ l ∈ L, (lmap_lookup d l).isSome = true) →
      nvp_limits_checked_enter orig d L =
        .ok (base_limits_checked_enter orig d L) := by
  intro L
  induction L with
  | nil => intro d orig hall; rfl
  | cons l ls ih =>
    intro d orig hall
    have hl := hall l (List.mem_cons_self l ls)
    cases hv : lmap_lookup d l with
    | none => rw [hv] at hl; exact Bool.noConfusion hl
    | some v =>
      rw [nvp_limits_checked_enter, hv, base_limits_checked_enter, hv]
      exact ih (lmap_set d l (.flag false)) (lmap_set orig l v)
        (fun x hx => by
          by_cases hxl : x = l
          · subst hxl
            rw [lmap_lookup_set_self]
            rfl
          · rw [lmap_lookup_set_ne d l x (.flag false) hxl]
            exact hall x (List.mem_cons_of_mem l hx))

/-- C10 as amended: for distinct limit names all present in the driver's
limits mapping, entering `limits_checked` sets each named limit to
`False`, and the restore performed on normal exit returns every limit to
exactly its value before entry, in both the NVP and the base driver
variants.  (With a repeated name, or a name absent from the mapping, the
claim fails: see the counterexample.)  The exit function models only
normal completion of the block — the source has no try/finally, so an
exception inside the block skips the restore. -/
theorem c10_limits_checked_roundtrip (d : LMap) (L : List String)
    (hnd : L.Nodup)
    (hall : ∀ l ∈ L, (lmap_lookup d l).isSome = true) :
    ∃ origf df, nvp_limits_checked_enter [] d L = .ok (origf, df) ∧
      (∀ l ∈ L, lmap_lookup df l = some (.flag false)) ∧
      (∀ k, lmap_lookup (limits_checked_exit df origf) k = lmap_lookup d k) ∧
      base_limits_checked_enter [] d L = (origf, df) := by
  obtain ⟨origf, df, heq, hnodup, hout, hin⟩ := nvp_enter_spec L d [] hnd hall
  have hnodup2 : (lmap_keys origf).Nodup := hnodup (by simp [lmap_keys])
  refine ⟨origf, df, heq, fun l hl => (hin l hl).2, ?_, ?_⟩
  · intro k
    rw [limits_checked_exit, lmap_lookup_update origf hnodup2 df k]
    by_cases hk : k ∈ L
    · obtain ⟨h1, h2⟩ := hin k hk
      rw [h1]
      cases hv : lmap_lookup d k with
      | none =>
        have hc := hall k hk
        rw [hv] at hc
        exact Bool.noConfusion hc
      | some v => rfl
    · obtain ⟨h1, h2⟩ := hout k hk
      rw [h1]
      exact h2
  · have := base_enter_eq_nvp L d [] hall
    rw [heq] at this
    exact (Except.ok.inj this).symm

/-- C10 counterexample: with the list naming `max_rules_per_group`
twice, the second iteration records `False` (the value the first
iteration just wrote) as the "original" value, so on exit the limit is
restored to `False`, not to its value 30 before entry — the limits
mapping does not round-trip for every list of limit names. -/
theorem c10_duplicate_name_counterexample :
    nvp_limits_checked_enter [] [("max_rules_per_group", .num 30)]
        ["max_rules_per_group", "max_rules_per_group"] =
      .ok ([("max_rules_per_group", .flag false)],
        [("max_rules_per_group", .flag false)]) ∧
      lmap_lookup
        (limits_checked_exit [("max_rules_per_group", .flag false)]
          [("max_rules_per_group", .flag false)])
        "max_rules_per_group" = some (.flag false) ∧
      lmap_lookup [("max_rules_per_group", .num 30)] "max_rules_per_group" =
        some (.num 30) :=
  ⟨rfl, rfl, rfl⟩

/-- The three limits `NVPDriver.__init__` installs. -/
def c10w_d : LMap :=
  [("max_ports_per_switch", .num 0), ("max_rules_per_group", .num 0),
   ("max_rules_per_port", .num 0)]

def c10w_orig : LMap := [("max_ports_per_switch", .num 0)]

def c10w_df : LMap :=
  [("max_ports_per_switch", .flag false), ("max_rules_per_group", .num 0),
   ("max_rules_per_port", .num 0)]

/-- C10 witness: overriding the single limit `max_ports_per_switch` on a
freshly initialised NVP driver sets it to `False` inside the block and
restores it to 0 on exit. -/
theorem c10_limits_checked_roundtrip_witness :
    lmap_lookup c10w_df "max_ports_per_switch" = some (.flag false) ∧
      lmap_lookup (limits_checked_exit c10w_df c10w_orig)
        "max_ports_per_switch" = some (.num 0) := by
  obtain ⟨o, df, henter, hin, hexit, hbase⟩ :=
    c10_limits_checked_roundtrip c10w_d ["max_ports_per_switch"]
      (by decide) (by decide)
  have h2 : nvp_limits_checked_enter [] c10w_d ["max_ports_per_switch"] =
      .ok (c10w_orig, c10w_df) := rfl
  rw [henter] at h2
  have h3 := Except.ok.inj h2
  injection h3 with ho hdf
  subst ho
  subst hdf
  exact ⟨hin _ (by decide), hexit _⟩

/-! ## C8: optimized vs baseline switch selection -/

theorem select_min_count_step_mem :
    ∀ (l : List LSwitchRow) (acc : Option LSwitchRow) (s : LSwitchRow),
      l.foldl
        (fun acc s =>
          match acc with
          | none => some s
          | some m => if s.port_count < m.port_count then some s else acc)
        acc = some s →
      s ∈ l ∨ acc = some s := by
  intro l
  induction l with
  | nil => intro acc s h; exact Or.inr h
  | cons x t ih =>
    intro acc s h
    rcases ih _ s h with h1 | h1
    · exact Or.inl (List.mem_cons_of_mem x h1)
    · cases acc with
      | none =>
        injection h1 with h2
        exact Or.inl (h2 ▸ List.mem_cons_self x t)
      | some m =>
        have h2 : (if x.port_count < m.port_count then some x else some m) =
            some s := h1
        by_cases hlt : x.port_count < m.port_count
        · rw [if_pos hlt] at h2
          injection h2 with h3
          exact Or.inl (h3 ▸ List.mem_cons_self x t)
        · rw [if_neg hlt] at h2
          exact Or.inr h2

theorem select_min_count_mem {l : List LSwitchRow} {s : LSwitchRow}
    (h : select_min_count l = some s) : s ∈ l := by
  rcases select_min_count_step_mem l none s h with h1 | h1
  · exact h1
  · exact Option.noConfusion h1

theorem select_min_count_step_isSome :
    ∀ (l : List LSwitchRow) (m : LSwitchRow),
      (l.foldl
        (fun acc s =>
          match acc with
          | none => some s
          | some m => if s.port_count < m.port_count then some s else acc)
        (some m)).isSome = true := by
  intro l
  induction l with
  | nil => intro m; rfl
  | cons x t ih =>
    intro m
    by_cases hlt : x.port_count < m.port_count
    · simpa [hlt] using ih x
    · simpa [hlt] using ih m

theorem select_min_count_isSome {l : List LSwitchRow} (h : l ≠ []) :
    (select_min_count l).isSome = true := by
  cases l with
  | nil => exact absurd rfl h
  | cons x t => exact select_min_count_step_isSome t x

def c8cex_switch (n uuid : Nat) (count : Int) : LSwitchRow :=
  { id := n, nvp_id := uuid, network_id := 1, display_name := 0,
    port_count := count, transport_zone := 0, transport_connector := 0,
    segment_id := none }

def c8cex_cache : CacheState :=
  { switches := [c8cex_switch 1 11 2, c8cex_switch 2 12 1], ports := [],
    profiles := [] }

/-- C8 counterexample: with a limit of 3 and two mirrored switches with
counts 2 and 1, the baseline selection returns the first open switch
(uuid 11) while the optimized selection orders by port count and returns
the least-loaded one (uuid 12) — the two selection functions are not
equal on mirrored state. -/
theorem c8_selection_differs_counterexample :
    opt_lswitch_select_open c8cex_cache 1 3 = some 12 ∧
      base_lswitch_select_open 3 (some (mirror_results c8cex_cache 1)) =
        some 11 := by
  decide

/-- C8 as amended: in the capacity-limited case the two selections agree
on *whether* an open switch exists over mirrored state, and the switch
the optimized selection returns is an open switch of the network — but
not necessarily the one the baseline picks; in the unlimited case they
agree exactly provided every cached switch belongs to the network (the
optimized `_lswitch_select_first` drops its network filter, so foreign
cached switches break even that). -/
theorem c8_selection_refines_baseline (c : CacheState) (net : Nat)
    (limit : Int) :
    (limit ≠ 0 →
      (((opt_lswitch_select_open c net limit).isSome = true ↔
        (base_lswitch_select_open limit
          (some (mirror_results c net))).isSome = true) ∧
      ∀ u, opt_lswitch_select_open c net limit = some u →
        (c.switches.any
          (fun s => decide (s.nvp_id = u) && decide (s.network_id = net) &&
            decide (s.port_count < limit))) = true)) ∧
    (limit = 0 →
      (∀ s ∈ c.switches, s.network_id = net) →
      opt_lswitch_select_open c net limit =
        base_lswitch_select_open limit (some (mirror_results c net))) := by
  constructor
  · intro hlimit
    constructor
    · constructor
      · intro hsome
        rw [opt_lswitch_select_open, if_neg hlimit] at hsome
        cases hfree : lswitch_select_free c net limit with
        | none => rw [hfree] at hsome; exact Bool.noConfusion hsome
        | some s =>
          have hmem := select_min_count_mem hfree
          rw [List.mem_filter] at hmem
          rw [base_lswitch_select_open]
          have hr : ({ uuid := s.nvp_id, lport_count := s.port_count } :
              LSwitchStatusRec) ∈ mirror_results c net := by
            rw [mirror_results]
            exact List.mem_map_of_mem _ (List.mem_filter.mpr
              ⟨hmem.1, by
                have := hmem.2
                simp only [Bool.and_eq_true, decide_eq_true_eq] at this
                simp [this.2]⟩)
          have hfind : (List.find?
              (fun r => decide (limit = 0) || decide (r.lport_count < limit))
              (mirror_results c net)).isSome = true := by
            rw [List.find?_isSome]
            refine ⟨_, hr, ?_⟩
            have := hmem.2
            simp only [Bool.and_eq_true, decide_eq_true_eq] at this
            simp [this.1]
          cases hf : List.find?
              (fun r => decide (limit = 0) || decide (r.lport_count < limit))
              (mirror_results c net) with
          | none => rw [hf] at hfind; exact Bool.noConfusion hfind
          | some r => rfl
      · intro hsome
        rw [base_lswitch_select_open] at hsome
        cases hf : List.find?
            (fun r => decide (limit = 0) || decide (r.lport_count < limit))
            (mirror_results c net) with
        | none => rw [hf] at hsome; exact Bool.noConfusion hsome
        | some r =>
          have hrmem := List.mem_of_find?_eq_some hf
          have hrp := List.find?_some hf
          rw [mirror_results, List.mem_map] at hrmem
          obtain ⟨s, hsmem, hs⟩ := hrmem
          rw [List.mem_filter] at hsmem
          have hcount : r.lport_count = s.port_count := by rw [← hs]
          have hlt : s.port_count < limit := by
            rw [decide_eq_false hlimit, Bool.false_or,
              decide_eq_true_eq, hcount] at hrp
            exact hrp
          rw [opt_lswitch_select_open, if_neg hlimit]
          have hne : c.switches.filter
              (fun s => decide (s.port_count < limit) &&
                decide (s.network_id = net)) ≠ [] := by
            intro hnil
            have := List.filter_eq_nil.mp hnil s hsmem.1
            simp only [Bool.and_eq_true, decide_eq_true_eq] at this hsmem
            exact this ⟨hlt, hsmem.2⟩
          have := select_min_count_isSome hne
          rw [lswitch_select_free]
          cases hm : select_min_count (c.switches.filter
              (fun s => decide (s.port_count < limit) &&
                decide (s.network_id = net))) with
          | none => rw [hm] at this; exact Bool.noConfusion this
          | some x => rfl
    · intro u hu
      rw [opt_lswitch_select_open, if_neg hlimit] at hu
      cases hfree : lswitch_select_free c net limit with
      | none => rw [hfree] at hu; exact Option.noConfusion hu
      | some s =>
        rw [hfree] at hu
        injection hu with hu2
        have hmem := select_min_count_mem hfree
        rw [List.mem_filter] at hmem
        rw [List.any_eq_true]
        refine ⟨s, hmem.1, ?_⟩
        have := hmem.2
        simp only [Bool.and_eq_true, decide_eq_true_eq] at this ⊢
        exact ⟨⟨hu2, this.2⟩, this.1⟩
  · intro hlimit hall
    subst hlimit
    rw [opt_lswitch_select_open, if_pos rfl, base_lswitch_select_open]
    have hfilter : c.switches.filter
        (fun s => decide (s.network_id = net)) = c.switches :=
      List.filter_eq_self.mpr (fun s hs => decide_eq_true (hall s hs))
    rw [mirror_results, hfilter, lswitch_select_first]
    cases c.switches with
    | nil => rfl
    | cons x t =>
      rw [List.map_cons, List.find?_cons_of_pos _ (by simp)]
      rfl

/-- C8 witness: on the two-switch mirrored cache with limit 3, both
selections find an open switch, and the optimized choice (uuid 12) is an
open switch of the network. -/
theorem c8_selection_refines_baseline_witness :
    (base_lswitch_select_open 3
        (some (mirror_results c8cex_cache 1))).isSome = true ∧
      (c8cex_cache.switches.any
        (fun s => decide (s.nvp_id = 12) && decide (s.network_id = 1) &&
          decide (s.port_count < 3))) = true := by
  have h := c8_selection_refines_baseline c8cex_cache 1 3
  have h1 := h.1 (by decide)
  exact ⟨h1.1.mp (by decide), h1.2 12 (by decide)⟩

/-! ## C3: remote-call-first ordering in the optimized driver -/

theorem remote_call_fail {oracle : Nat → Bool} {w : World}
    (h : oracle w.calls = false) :
    remote_call oracle w =
      .error (.remoteFailure, { w with calls := w.calls + 1 }) := by
  have hc : ¬(oracle w.calls = true) := by
    rw [h]; exact Bool.false_ne_true
  rw [remote_call, if_neg hc]

/-- C3 as amended: every cache-mutating operation of the optimized
driver issues its first remote call before any local cache mutation, so
when that first remote call raises (or the operation fails its local
pre-checks) the operation fails and the local cache is unchanged.  (The
claim's stronger consequence — that *any* failing remote call leaves the
cache unchanged — is false for operations that issue several remote
mutations: see the counterexample.) -/
theorem c3_first_remote_failure_leaves_cache (oracle : Nat → Bool)
    (cfg : NvpConfig) (w : World) (op : DrvOp)
    (hfail : oracle w.calls = false) :
    drv_result_ok (run_drv_op oracle cfg w op) = false ∧
      (drv_result_world (run_drv_op oracle cfg w op)).cache = w.cache := by
  cases op with
  | createPort net =>
    rw [run_drv_op, drv_create_port]
    split
    · unfold create_port_post
      rw [remote_call_fail hfail]
      exact ⟨rfl, rfl⟩
    · split
      · exact ⟨rfl, rfl⟩
      · rw [remote_call_fail hfail]
        exact ⟨rfl, rfl⟩
  | deletePort pid =>
    rw [run_drv_op, drv_delete_port]
    split
    · exact ⟨rfl, rfl⟩
    · split
      · exact ⟨rfl, rfl⟩
      · rw [remote_call_fail hfail]
        exact ⟨rfl, rfl⟩
  | lswitchDelete uuid =>
    rw [run_drv_op, drv_lswitch_delete, remote_call_fail hfail]
    exact ⟨rfl, rfl⟩
  | createSecGroup gid i e =>
    rw [run_drv_op, drv_create_security_group]
    by_cases hl : group_rule_limit_hit cfg.max_rules_per_group (i + e) = true
    · rw [if_pos hl]
      exact ⟨rfl, rfl⟩
    · rw [if_neg hl, remote_call_fail hfail]
      exact ⟨rfl, rfl⟩
  | deleteSecGroup gid =>
    rw [run_drv_op, drv_delete_security_group]
    split
    · exact ⟨rfl, rfl⟩
    · rw [remote_call_fail hfail]
      exact ⟨rfl, rfl⟩

/-- A cache switch row with trivial provider attributes. -/
def mk_plain_switch (i nvp net : Nat) (count : Int) : LSwitchRow :=
  { id := i, nvp_id := nvp, network_id := net, display_name := 0,
    port_count := count, transport_zone := 0, transport_connector := 0,
    segment_id := none }

def c3cex_cfg : NvpConfig :=
  { max_ports_per_switch := 0, max_rules_per_group := .num 30 }

/-- A cache with one switch (local id 10, remote uuid 11) carrying one
port (remote uuid 5). -/
def c3cex_w : World :=
  { cache :=
      { switches := [mk_plain_switch 10 11 1 1],
        ports := [{ port_id := 5, switch_id := 10 }],
        profiles := [] },
    next_uuid := 20, calls := 0 }

/-- Oracle: the first remote call (the port delete) succeeds, the second
(the switch delete) raises. -/
def c3cex_oracle : Nat → Bool := fun n => decide (n = 0)

/-- C3 counterexample: deleting the switch's last port issues two remote
calls; when the second raises, the operation fails but the local cache
has already lost the port record and decremented the switch counter —
local state is not unchanged on error. -/
theorem c3_partial_mutation_counterexample :
    drv_result_ok (run_drv_op c3cex_oracle c3cex_cfg c3cex_w
      (.deletePort 5)) = false ∧
      (drv_result_world (run_drv_op c3cex_oracle c3cex_cfg c3cex_w
        (.deletePort 5))).cache ≠ c3cex_w.cache ∧
      (drv_result_world (run_drv_op c3cex_oracle c3cex_cfg c3cex_w
        (.deletePort 5))).cache.ports = [] := by
  decide

def c3w_cfg : NvpConfig :=
  { max_ports_per_switch := 0, max_rules_per_group := .num 30 }

def c3w_w : World :=
  { cache :=
      { switches := [mk_plain_switch 10 11 1 1],
        ports := [{ port_id := 5, switch_id := 10 }],
        profiles := [] },
    next_uuid := 20, calls := 0 }

/-- C3 witness: when the very first remote call fails, delete_port
fails and the cache is untouched. -/
theorem c3_first_remote_failure_leaves_cache_witness :
    drv_result_ok (run_drv_op (fun _ => false) c3w_cfg c3w_w
      (.deletePort 5)) = false ∧
      (drv_result_world (run_drv_op (fun _ => false) c3w_cfg c3w_w
        (.deletePort 5))).cache = c3w_w.cache :=
  c3_first_remote_failure_leaves_cache (fun _ => false) c3w_cfg c3w_w
    (.deletePort 5) rfl

/-! ## C2: port_count never exceeds a nonzero capacity -/

theorem update_first_mem_or {α : Type} (p : α → Bool) (f : α → α) :
    ∀ (l : List α) (x : α), x ∈ update_first p f l →
      x ∈ l ∨ ∃ y, y ∈ l ∧ p y = true ∧ x = f y := by
  intro l
  induction l with
  | nil => intro x hx; exact absurd hx (List.not_mem_nil x)
  | cons r t ih =>
    intro x hx
    by_cases hr : p r
    · rw [update_first, if_pos hr] at hx
      rcases List.mem_cons.mp hx with rfl | hx2
      · exact Or.inr ⟨r, List.mem_cons_self r t, hr, rfl⟩
      · exact Or.inl (List.mem_cons_of_mem r hx2)
    · rw [update_first, if_neg hr] at hx
      rcases List.mem_cons.mp hx with rfl | hx2
      · exact Or.inl (List.mem_cons_self x t)
      · rcases ih x hx2 with h1 | ⟨y, hy, hpy, hxy⟩
        · exact Or.inl (List.mem_cons_of_mem r h1)
        · exact Or.inr ⟨y, List.mem_cons_of_mem r hy, hpy, hxy⟩

theorem map_update_first {α β : Type} (p : α → Bool) (f : α → α)
    (g : α → β) (hg : ∀ y, g (f y) = g y) :
    ∀ l : List α, (update_first p f l).map g = l.map g := by
  intro l
  induction l with
  | nil => rfl
  | cons r t ih =>
    by_cases hr : p r
    · rw [update_first, if_pos hr, List.map_cons, List.map_cons, hg]
    · rw [update_first, if_neg hr, List.map_cons, List.map_cons, ih]

theorem remove_first_sublist {α : Type} (p : α → Bool) :
    ∀ l : List α, (remove_first p l).Sublist l := by
  intro l
  induction l with
  | nil => exact List.Sublist.refl []
  | cons r t ih =>
    by_cases hr : p r
    · rw [remove_first, if_pos hr]
      exact List.sublist_cons_self r t
    · rw [remove_first, if_neg hr]
      exact List.Sublist.cons₂ r ih

theorem remote_call_ok {oracle : Nat → Bool} {w w2 : World}
    (h : remote_call oracle w = .ok w2) :
    w2 = { w with calls := w.calls + 1 } := by
  rw [remote_call] at h
  by_cases hc : oracle w.calls = true
  · rw [if_pos hc] at h
    exact (Except.ok.inj h).symm
  · rw [if_neg hc] at h
    exact Except.noConfusion h

theorem remote_call_err {oracle : Nat → Bool} {w w2 : World} {e : DrvErr}
    (h : remote_call oracle w = .error (e, w2)) :
    w2 = { w with calls := w.calls + 1 } := by
  rw [remote_call] at h
  by_cases hc : oracle w.calls = true
  · rw [if_pos hc] at h
    exact Except.noConfusion h
  · rw [if_neg hc] at h
    have := Except.error.inj h
    exact (congrArg Prod.snd this).symm

/-- The C2 invariant over the driver's world: every cached switch
respects the capacity, remote switch uuids are distinct, and all uuids
are below the freshness counter. -/
def cache_inv (limit : Int) (w : World) : Prop :=
  (∀ s ∈ w.cache.switches, s.port_count ≤ limit) ∧
    (w.cache.switches.map (fun s => s.nvp_id)).Nodup ∧
    (∀ s ∈ w.cache.switches, s.nvp_id < w.next_uuid)

instance (limit : Int) (w : World) : Decidable (cache_inv limit w) := by
  rw [cache_inv]
  infer_instance

theorem drv_lswitch_delete_inv (limit : Int) (oracle : Nat → Bool)
    (w : World) (uuid : Nat) (h : cache_inv limit w) :
    cache_inv limit (drv_result_world (drv_lswitch_delete oracle w uuid)) := by
  simp only [drv_lswitch_delete]
  cases hrc : remote_call oracle w with
  | error e =>
    obtain ⟨e1, w2⟩ := e
    have hw2 := remote_call_err hrc
    subst hw2
    exact h
  | ok w1 =>
    have hw1 := remote_call_ok hrc
    subst hw1
    cases hsel : lswitch_select_by_nvp_id w.cache uuid with
    | none => exact h
    | some s =>
      refine ⟨?_, ?_, ?_⟩
      · intro x hx
        exact h.1 x ((remove_first_sublist _ _).subset hx)
      · exact h.2.1.sublist
          (List.Sublist.map _ (remove_first_sublist _ _))
      · intro x hx
        exact h.2.2 x ((remove_first_sublist _ _).subset hx)

theorem create_port_mirror_apply_inv (limit : Int) (w1 : World)
    (uuid : Nat) (sw : LSwitchRow) (h : cache_inv limit w1)
    (hopen : ∃ s, s ∈ w1.cache.switches ∧ s.nvp_id = uuid ∧
      s.port_count < limit) :
    cache_inv limit (create_port_mirror_apply w1 uuid sw) := by
  obtain ⟨s0, hs0mem, hs0uuid, hs0lt⟩ := hopen
  simp only [create_port_mirror_apply]
  refine ⟨?_, ?_, ?_⟩
  · intro x hx
    rcases update_first_mem_or _ _ _ x hx with hx1 | ⟨y, hy, hpy, hxy⟩
    · exact h.1 x hx1
    · have hyuuid : y.nvp_id = uuid := of_decide_eq_true hpy
      have hys0 : y = s0 :=
        List.inj_on_of_nodup_map h.2.1 hy hs0mem (hyuuid.trans hs0uuid.symm)
      have hlt2 : y.port_count < limit := hys0 ▸ hs0lt
      rw [hxy]
      exact Int.add_one_le_iff.mpr hlt2
  · show ((update_first (fun s : LSwitchRow => decide (s.nvp_id = uuid))
      (fun s : LSwitchRow => { s with port_count := s.port_count + 1 })
      w1.cache.switches).map (fun s => s.nvp_id)).Nodup
    rw [map_update_first (fun s : LSwitchRow => decide (s.nvp_id = uuid))
      (fun s : LSwitchRow => { s with port_count := s.port_count + 1 })
      (fun s => s.nvp_id) (fun y => rfl)]
    exact h.2.1
  · intro x hx
    rcases update_first_mem_or _ _ _ x hx with hx1 | ⟨y, hy, hpy, hxy⟩
    · exact Nat.lt_succ_of_lt (h.2.2 x hx1)
    · rw [hxy]
      exact Nat.lt_succ_of_lt (h.2.2 y hy)

theorem create_port_mirror_inv (limit : Int) (w1 : World) (uuid : Nat)
    (h : cache_inv limit w1)
    (hopen : ∃ s, s ∈ w1.cache.switches ∧ s.nvp_id = uuid ∧
      s.port_count < limit) :
    cache_inv limit (drv_result_world (create_port_mirror w1 uuid)) := by
  rw [create_port_mirror]
  cases hsel : lswitch_select_by_nvp_id w1.cache uuid with
  | none => exact h
  | some sw => exact create_port_mirror_apply_inv limit w1 uuid sw h hopen

theorem create_port_post_inv (limit : Int) (oracle : Nat → Bool)
    (w : World) (uuid : Nat) (h : cache_inv limit w)
    (hopen : ∃ s, s ∈ w.cache.switches ∧ s.nvp_id = uuid ∧
      s.port_count < limit) :
    cache_inv limit (drv_result_world (create_port_post oracle w uuid)) := by
  rw [create_port_post]
  cases hrc : remote_call oracle w with
  | error e =>
    obtain ⟨e1, w2⟩ := e
    have hw2 := remote_call_err hrc
    subst hw2
    exact h
  | ok w1 =>
    have hw1 := remote_call_ok hrc
    subst hw1
    exact create_port_mirror_inv limit _ uuid h hopen

theorem delete_port_mirror_apply_inv (limit : Int) (w1 : World)
    (port_id : Nat) (sw : LSwitchRow) (h : cache_inv limit w1) :
    cache_inv limit (delete_port_mirror_apply w1 port_id sw) := by
  simp only [delete_port_mirror_apply]
  refine ⟨?_, ?_, ?_⟩
  · intro x hx
    rcases update_first_mem_or _ _ _ x hx with hx1 | ⟨y, hy, hpy, hxy⟩
    · exact h.1 x hx1
    · rw [hxy]
      exact le_trans (le_of_lt (Int.sub_one_lt_iff.mpr (le_refl _)))
        (h.1 y hy)
  · show ((update_first (fun s : LSwitchRow => decide (s.id = sw.id))
      (fun s : LSwitchRow => { s with port_count := s.port_count - 1 })
      w1.cache.switches).map (fun s => s.nvp_id)).Nodup
    rw [map_update_first (fun s : LSwitchRow => decide (s.id = sw.id))
      (fun s : LSwitchRow => { s with port_count := s.port_count - 1 })
      (fun s => s.nvp_id) (fun y => rfl)]
    exact h.2.1
  · intro x hx
    rcases update_first_mem_or _ _ _ x hx with hx1 | ⟨y, hy, hpy, hxy⟩
    · exact h.2.2 x hx1
    · rw [hxy]
      exact h.2.2 y hy

theorem delete_port_mirror_inv (limit : Int) (oracle : Nat → Bool)
    (w1 : World) (port_id : Nat) (sw : LSwitchRow)
    (h : cache_inv limit w1) :
    cache_inv limit
      (drv_result_world (delete_port_mirror oracle w1 port_id sw)) := by
  rw [delete_port_mirror]
  by_cases hz : sw.port_count - 1 = 0
  · rw [if_pos hz]
    exact drv_lswitch_delete_inv limit oracle _ sw.nvp_id
      (delete_port_mirror_apply_inv limit w1 port_id sw h)
  · rw [if_neg hz]
    exact delete_port_mirror_apply_inv limit w1 port_id sw h

theorem lswitch_create_mirror_inv (limit : Int) (w1 : World)
    (network_id : Nat) (det : NetworkDetails) (hlim : 0 < limit)
    (h : cache_inv limit w1) :
    cache_inv limit (lswitch_create_mirror w1 network_id det).1 := by
  simp only [lswitch_create_mirror]
  refine ⟨?_, ?_, ?_⟩
  · intro x hx
    rcases List.mem_append.mp hx with hx1 | hx1
    · exact h.1 x hx1
    · rw [List.mem_singleton.mp hx1]
      exact Int.le_of_lt hlim
  · rw [List.map_append]
    refine List.Nodup.append h.2.1 (List.nodup_singleton _) ?_
    intro a ha hb
    rw [List.mem_singleton.mp hb] at ha
    obtain ⟨y, hy, hya⟩ := List.mem_map.mp ha
    have := h.2.2 y hy
    rw [hya] at this
    exact Nat.not_succ_lt_self this
  · intro x hx
    rcases List.mem_append.mp hx with hx1 | hx1
    · exact Nat.lt_of_lt_of_le (h.2.2 x hx1) (Nat.le_add_right _ 2)
    · rw [List.mem_singleton.mp hx1]
      exact Nat.lt_of_lt_of_le (Nat.lt_succ_self _)
        (Nat.le_refl _)

theorem lswitch_create_mirror_open (limit : Int) (w1 : World)
    (network_id : Nat) (det : NetworkDetails) (hlim : 0 < limit) :
    ∃ s, s ∈ (lswitch_create_mirror w1 network_id det).1.cache.switches ∧
      s.nvp_id = (lswitch_create_mirror w1 network_id det).2 ∧
      s.port_count < limit := by
  refine ⟨_, List.mem_append_right _ (List.mem_singleton_self _), rfl, ?_⟩
  exact hlim

theorem drv_create_port_inv (oracle : Nat → Bool) (cfg : NvpConfig)
    (w : World) (network_id : Nat) (hlim : 0 < cfg.max_ports_per_switch)
    (h : cache_inv cfg.max_ports_per_switch w) :
    cache_inv cfg.max_ports_per_switch
      (drv_result_world (drv_create_port oracle cfg w network_id)) := by
  rw [drv_create_port]
  cases hsel : opt_lswitch_select_open w.cache network_id
      cfg.max_ports_per_switch with
  | some uuid =>
    rw [opt_lswitch_select_open, if_neg (ne_of_gt hlim)] at hsel
    cases hfree : lswitch_select_free w.cache network_id
        cfg.max_ports_per_switch with
    | none =>
      rw [hfree] at hsel
      exact Option.noConfusion hsel
    | some s =>
      rw [hfree, Option.map_some'] at hsel
      injection hsel with hs2
      have hmem := select_min_count_mem hfree
      rw [List.mem_filter] at hmem
      have hcond := hmem.2
      simp only [Bool.and_eq_true, decide_eq_true_eq] at hcond
      exact create_port_post_inv _ oracle w uuid h ⟨s, hmem.1, hs2, hcond.1⟩
  | none =>
    cases hdet : get_network_details w.cache network_id with
    | none => exact h
    | some det =>
      cases hrc : remote_call oracle w with
      | error e =>
        obtain ⟨e1, w2⟩ := e
        have hw2 := remote_call_err hrc
        subst hw2
        exact h
      | ok w1 =>
        have hw1 := remote_call_ok hrc
        subst hw1
        exact create_port_post_inv _ oracle _ _
          (lswitch_create_mirror_inv _ _ network_id det hlim h)
          (lswitch_create_mirror_open _ _ network_id det hlim)

theorem drv_delete_port_inv (limit : Int) (oracle : Nat → Bool)
    (w : World) (port_id : Nat) (h : cache_inv limit w) :
    cache_inv limit
      (drv_result_world (drv_delete_port oracle w port_id)) := by
  rw [drv_delete_port]
  split
  · exact h
  · split
    · exact h
    · rename_i sw hswe
      cases hrc : remote_call oracle w with
      | error e =>
        obtain ⟨e1, w2⟩ := e
        have hw2 := remote_call_err hrc
        subst hw2
        exact h
      | ok w1 =>
        have hw1 := remote_call_ok hrc
        subst hw1
        exact delete_port_mirror_inv limit oracle _ port_id sw h

theorem drv_create_security_group_inv (limit : Int) (oracle : Nat → Bool)
    (cfg : NvpConfig) (w : World) (gid i e : Nat)
    (h : cache_inv limit w) :
    cache_inv limit
      (drv_result_world (drv_create_security_group oracle cfg w gid i e)) := by
  rw [drv_create_security_group]
  by_cases hl : group_rule_limit_hit cfg.max_rules_per_group (i + e) = true
  · rw [if_pos hl]
    exact h
  · rw [if_neg hl]
    cases hrc : remote_call oracle w with
    | error e2 =>
      obtain ⟨e1, w2⟩ := e2
      have hw2 := remote_call_err hrc
      subst hw2
      exact h
    | ok w1 =>
      have hw1 := remote_call_ok hrc
      subst hw1
      refine ⟨?_, ?_, ?_⟩
      · intro x hx
        exact h.1 x hx
      · exact h.2.1
      · intro x hx
        exact Nat.lt_succ_of_lt (h.2.2 x hx)

theorem drv_delete_security_group_inv (limit : Int) (oracle : Nat → Bool)
    (w : World) (gid : Nat) (h : cache_inv limit w) :
    cache_inv limit
      (drv_result_world (drv_delete_security_group oracle w gid)) := by
  rw [drv_delete_security_group]
  split
  · exact h
  · cases hrc : remote_call oracle w with
    | error e2 =>
      obtain ⟨e1, w2⟩ := e2
      have hw2 := remote_call_err hrc
      subst hw2
      exact h
    | ok w1 =>
      have hw1 := remote_call_ok hrc
      subst hw1
      exact h

theorem run_drv_op_inv (oracle : Nat → Bool) (cfg : NvpConfig) (w : World)
    (op : DrvOp) (hlim : 0 < cfg.max_ports_per_switch)
    (h : cache_inv cfg.max_ports_per_switch w) :
    cache_inv cfg.max_ports_per_switch
      (drv_result_world (run_drv_op oracle cfg w op)) := by
  cases op with
  | createPort net => exact drv_create_port_inv oracle cfg w net hlim h
  | deletePort pid => exact drv_delete_port_inv _ oracle w pid h
  | lswitchDelete uuid => exact drv_lswitch_delete_inv _ oracle w uuid h
  | createSecGroup gid i e =>
    exact drv_create_security_group_inv _ oracle cfg w gid i e h
  | deleteSecGroup gid =>
    exact drv_delete_security_group_inv _ oracle w gid h

/-- C2: under a nonzero (positive) `max_ports_per_switch`, after any
sequence of optimized-driver operations — ports are created only on a
switch whose recorded count is strictly below the limit (or on a fresh
switch), and each create increments exactly the chosen switch's count —
no cached switch's `port_count` ever exceeds the limit. -/
theorem c2_port_count_bounded (oracle : Nat → Bool) (cfg : NvpConfig)
    (w : World) (ops : List DrvOp) (hlim : 0 < cfg.max_ports_per_switch)
    (hinv : cache_inv cfg.max_ports_per_switch w) :
    ∀ s ∈ (run_drv_ops oracle cfg w ops).cache.switches,
      s.port_count ≤ cfg.max_ports_per_switch := by
  induction ops generalizing w with
  | nil => exact hinv.1
  | cons op ops ih =>
    rw [run_drv_ops]
    exact ih _ (run_drv_op_inv oracle cfg w op hlim hinv)

def c2w_cfg : NvpConfig :=
  { max_ports_per_switch := 2, max_rules_per_group := .num 30 }

def c2w_w : World :=
  { cache :=
      { switches := [mk_plain_switch 0 1 7 0],
        ports := [],
        profiles := [] },
    next_uuid := 2, calls := 0 }

def c2w_ops : List DrvOp := [.createPort 7, .createPort 7, .createPort 7]

/-- C2 witness: the spec's scenario — limit 2, three port placements on
one network: the first two land on switch A, the third forces a new
switch B, and no switch ever exceeds 2 ports. -/
theorem c2_port_count_bounded_witness :
    ((run_drv_ops (fun _ => true) c2w_cfg c2w_w c2w_ops).cache.switches.all
      (fun s => decide (s.port_count ≤ 2))) = true := by
  have h := c2_port_count_bounded (fun _ => true) c2w_cfg c2w_w c2w_ops
    (by decide) (by decide)
  rw [List.all_eq_true]
  intro s hs
  exact decide_eq_true (h s hs)
